import Mathlib

/-!
# The OpenCL convolution operator of caffe2 (`contrib/opencl/operators/conv_op.h`)

A shallow embedding of `ConvOp<T>` and a verification of its host-side behaviour:
shape validation, strategy selection, lazy compilation of the device programs,
packing and caching of the filter, and the index spaces of the dispatches.

Conventions of the embedding.

* Tensor extents are natural numbers.  The source keeps them in `int` locals; the
  embedding covers the calls whose extents and index products stay inside the range of
  `int`, where the arithmetic of the source is the arithmetic on naturals.
* Element values (`float`, `cl_half`) are abstract tokens of type `Elem`; the host code
  only moves them around, it never computes with them.
* The OpenCL runtime is an external collaborator.  Every request the operator issues is
  appended to the log `ctx` of the instance, and the runtime is taken to accept each
  request (`OPENCL_CHECK` does not fire).  What the device programs compute is outside
  the embedding.
* `CAFFE_ENFORCE*` failures are the `Except.error` results of the entry points.  A
  failure carries, next to its message, the instance as the exception leaves it: the
  members of a C++ object keep what was written to them before a throw.
* The strategies divide by the group count; the embedding is of instances with at least
  one group.
* The framework reaches the operator through one of its two entry points,
  `RunOnDeviceWithOrderNCHW` and `RunOnDeviceWithOrderNHWC`; in a sequence of calls every
  call names its entry point.
-/

set_option linter.unusedVariables false

namespace caffe2

/-! ## Data model -/

/-- Abstract element value of a tensor. -/
abbrev Elem := Int

/-- A tensor: its extents and its elements in row-major order. -/
structure Tensor where
  dims : List Nat
  data : List Elem
deriving DecidableEq, Repr

/-- The number of axes, `Tensor::ndim()`. -/
def Tensor.ndim (t : Tensor) : Nat := t.dims.length

/-- The extent of axis `i`, `Tensor::dim(i)`. -/
def Tensor.dim (t : Tensor) (i : Nat) : Nat := t.dims.getD i 0

/-- The number of elements, `Tensor::size()`. -/
def Tensor.size (t : Tensor) : Nat := t.dims.prod

/-- The two storage orders, one for each entry point of the operator. -/
inductive StorageOrder where
  | NCHW
  | NHWC
deriving DecidableEq, Repr

/-- The template parameter `T` of `ConvOp<T>`. -/
inductive ElemType where
  | float
  | cl_half
deriving DecidableEq, Repr

/-- The image formats the operator uses, `cl::ImageFormat(CL_RGBA, ·)`. -/
inductive ImageFormat where
  | RGBA_FLOAT
  | RGBA_HALF_FLOAT
deriving DecidableEq, Repr

/-- The program templates of `kernels/conv_impl.h`, known by name only. -/
inductive KernelSource where
  | k1x1Gemm
  | kMECLowering
  | kMECGemm
  | kDirectConv
deriving DecidableEq, Repr

/-- A compiled program, `cl::Kernel`: the template and the substitutions it was built with. -/
structure Kernel where
  source : KernelSource
  arg_list : List (String × String)
deriving DecidableEq, Repr

/-- A two-dimensional RGBA image on the device.  `texels` are the elements that
`enqueueCopyBufferToImage` moved into it, four per texel. -/
structure Image2D where
  format : ImageFormat
  width : Nat
  height : Nat
  texels : List Elem
deriving DecidableEq, Repr

/-- The number of elements an image has room for: four per texel. -/
def Image2D.capacity (img : Image2D) : Nat := 4 * (img.width * img.height)

/-- The value bound to a kernel argument by `setArg`. -/
inductive KernelArg where
  | int (v : Nat)
  | X
  | Y
  | filterBuffer (b : Option Tensor)
  | mecBuffer (b : Option (List Nat))
  | filterBufferImage (img : Option Image2D)
deriving DecidableEq, Repr

/-- A request issued to the OpenCL context or to its command queue. -/
inductive DeviceCall where
  | BuildKernel (source : KernelSource) (arg_list : List (String × String))
  | TypedCopy (src : Tensor)
  | Image2D (format : ImageFormat) (width height : Nat)
  | enqueueCopyBufferToImage (region : Nat × Nat × Nat)
  | setArg (k : KernelSource) (index : Nat) (v : KernelArg)
  | getWorkGroupInfo (k : KernelSource)
  | enqueueNDRangeKernel (k : KernelSource) (global : Nat × Nat × Nat)
deriving DecidableEq, Repr

/-- The state of one operator instance: the members of `ConvPoolOpBase` the operator
reads, its own members, and the log `ctx` of the requests issued to the device. -/
structure ConvOp where
  T : ElemType
  kernel_ : List Nat
  stride_ : List Nat
  group_ : Nat
  filterBufferImage_ : Option Image2D
  filterBuffer_ : Option Tensor
  mecBuffer_ : Option (List Nat)
  loweringKernel_ : Option Kernel
  gemmKernel_ : Option Kernel
  gemm1x1Kernel_ : Option Kernel
  directKernel_ : Option Kernel
  kernel_args_ : List (String × String)
  filter_image_format_ : ImageFormat
  use_MEC : Bool
  ctx : List DeviceCall
deriving DecidableEq, Repr

/-- The output-size computation of `ConvPoolOpBase`, an external collaborator: from the
extents of the input and the number of output channels it yields the extents of the
output, or fails. -/
abbrev OutputSizer := List Nat → Nat → Except String (List Nat)

/-- The element `v[i]` of a `std::vector<int>` member. -/
def at_ (v : List Nat) (i : Nat) : Nat := v.getD i 0

/-- The largest value of an `int` local, `std::numeric_limits<int>::max()`. -/
def INT_MAX : Nat := 2147483647

/-- `CAFFE_ENFORCE_EQ(a, b)` in a member function of the instance `self`: continue when
the two values agree, otherwise throw, leaving the instance as it is at that point. -/
def CAFFE_ENFORCE_EQ (self : ConvOp) (a b : Nat) (what : String) :
    Except (String × ConvOp) Unit :=
  if a = b then .ok () else .error (what, self)

/-! ## Construction -/

/-- The members of an instance right after construction: the substitutions and the image
format chosen by the element type, the kernel size among the substitutions, no program,
no buffer, no request issued yet. -/
def ConvOp.members (T : ElemType) (kernel_ stride_ : List Nat)
    (group_ : Nat) (use_MEC : Bool) : ConvOp :=
  let typed : List (String × String) × ImageFormat :=
    match T with
    | .float =>
        ([("REAL", "float"), ("REAL4", "float4"), ("READ_IMAGE", "read_imagef")],
          ImageFormat.RGBA_FLOAT)
    | .cl_half =>
        ([("REAL", "half"), ("REAL4", "half4"), ("READ_IMAGE", "read_imageh")],
          ImageFormat.RGBA_HALF_FLOAT)
  { T := T
    kernel_ := kernel_
    stride_ := stride_
    group_ := group_
    filterBufferImage_ := none
    filterBuffer_ := none
    mecBuffer_ := none
    loweringKernel_ := none
    gemmKernel_ := none
    gemm1x1Kernel_ := none
    directKernel_ := none
    kernel_args_ := typed.1 ++ [("KERNEL", toString (at_ kernel_ 0))]
    filter_image_format_ := typed.2
    use_MEC := use_MEC
    ctx := [] }

/-- The constructor `ConvOp::ConvOp`.  The members of the base class and the argument
`use_MEC` of the operator definition are given; non-square kernels are refused. -/
def ConvOp.new (T : ElemType) (kernel_ stride_ : List Nat)
    (group_ : Nat) (use_MEC : Bool) : Except String ConvOp :=
  if at_ kernel_ 0 = at_ kernel_ 1 then
    .ok (ConvOp.members T kernel_ stride_ group_ use_MEC)
  else
    .error "OpenCL currently only supports square kernels"

/-! ## The three strategies -/

/-- Modelled from the spec: `TypedCopy` is declared in `conv_op.h` but its body is not
part of the source.  The spec describes it as the host-to-device copy of the filter
(a byte-identical copy); the device tensor receives the elements of `src`. -/
def TypedCopy (src : Tensor) (dst : Tensor) : Tensor :=
  { dims := dst.dims, data := src.data }

/-- A freshly allocated tensor of the given extents, `make_unique<TensorCL>(dims)` or
`Resize(dims)`; its elements are not yet meaningful. -/
def Tensor.alloc (dims : List Nat) : Tensor :=
  { dims := dims, data := List.replicate dims.prod 0 }

/-- The cached filter has to be rebuilt: `!filterBuffer_ || filterBuffer_->size() != filter.size()`. -/
def ConvOp.filterStale (self : ConvOp) (filter : Tensor) : Bool :=
  match self.filterBuffer_ with
  | none => true
  | some b => b.size != filter.size

/-- The member function `Run1x1GConv`: the grouped 1x1 convolution as a GEMM.  The
quotients by `G` are those of the source for `G ≥ 1`. -/
def Run1x1GConv (self : ConvOp) (filter : Tensor)
    (N C_out C_in H_out H_in W_out W_in G : Nat) : Bool × ConvOp :=
  -- We compile the kernels on the first run to get channel info embedded
  let self :=
    if self.gemm1x1Kernel_.isNone then
      let kernel_args_ := self.kernel_args_ ++
        [("IN_CHANNEL_DIV_G", toString (C_in / G)),
         ("OUT_CHANNEL_DIV_G", toString (C_out / G)),
         ("FILTER_DIV_G", toString (filter.size / G))]
      { self with
        kernel_args_ := kernel_args_
        gemm1x1Kernel_ := some { source := .k1x1Gemm, arg_list := kernel_args_ }
        ctx := self.ctx ++ [.BuildKernel .k1x1Gemm kernel_args_] }
    else self
  let self :=
    if self.filterStale filter then
      { self with
        filterBuffer_ := some (TypedCopy filter (Tensor.alloc filter.dims))
        ctx := self.ctx ++ [.TypedCopy filter] }
    else self
  let self :=
    { self with
      ctx := self.ctx ++
        [.setArg .k1x1Gemm 0 (.filterBuffer self.filterBuffer_),
         .setArg .k1x1Gemm 1 (.int (C_in / G)),
         .setArg .k1x1Gemm 2 .X,
         .setArg .k1x1Gemm 3 .Y,
         .setArg .k1x1Gemm 4 (.int (H_out * W_out)),
         .setArg .k1x1Gemm 5 (.int (C_out / G)),
         .setArg .k1x1Gemm 6 (.int (H_out * W_out)),
         .setArg .k1x1Gemm 7 (.int (C_in / G)),
         .enqueueNDRangeKernel .k1x1Gemm ((H_out * W_out) >>> 2, (C_out / G) >>> 3, G)] }
  (true, self)

/-- The writes of the transposition loop of `RunWithMECConv` in program order: for
`i < filterH_` and `j < filterW_` the pair of the index written in the transposed filter
and the index read in the filter. -/
def transposeWrites (filterH_ filterW_ : Nat) : List (Nat × Nat) :=
  (List.range filterH_).flatMap fun i =>
    (List.range filterW_).map fun j => (i * filterW_ + j, j * filterH_ + i)

/-- The host-side transposed filter of `RunWithMECConv`: a tensor of the extents of the
filter, filled by the transposition loop. -/
def transposedFilter (filter : Tensor) (filterH_ filterW_ : Nat) : Tensor :=
  let transposedFilter := Tensor.alloc filter.dims
  { transposedFilter with
    data := (transposeWrites filterH_ filterW_).foldl
      (fun d w => d.set w.1 (filter.data.getD w.2 0)) transposedFilter.data }

/-- The image made from a device buffer: `new cl::Image2D(.., width, height, ..)` followed
by `enqueueCopyBufferToImage` with origin `(0, 0, 0)` and region `(width, height, 1)`,
which moves `width * height` texels of four elements each from the start of the buffer. -/
def copyBufferToImage (format : ImageFormat) (buffer : Tensor) (width height : Nat) : Image2D :=
  { format := format
    width := width
    height := height
    texels := buffer.data.take (4 * (width * height)) }

/-- The member function `RunWithMECConv`: lowering of the input followed by a GEMM. -/
def RunWithMECConv (self : ConvOp) (filter : Tensor)
    (N C_out C_in H_out H_in W_out W_in : Nat) : Bool × ConvOp :=
  -- We compile the kernels on the first run to get channel info embedded
  let self :=
    if self.loweringKernel_.isNone || self.gemmKernel_.isNone then
      let kernel_args_ := self.kernel_args_ ++
        [("IN_CHANNEL", toString C_in), ("OUT_CHANNEL", toString C_out)]
      { self with
        kernel_args_ := kernel_args_
        loweringKernel_ := some { source := .kMECLowering, arg_list := kernel_args_ }
        gemmKernel_ := some { source := .kMECGemm, arg_list := kernel_args_ }
        ctx := self.ctx ++
          [.BuildKernel .kMECLowering kernel_args_, .BuildKernel .kMECGemm kernel_args_] }
    else self
  -- We transform and cache the filter.
  let self :=
    if self.filterStale filter then
      let filterH_ := C_in * at_ self.kernel_ 1 * at_ self.kernel_ 0
      let filterW_ := C_out
      let transposed := transposedFilter filter filterH_ filterW_
      let filterBuffer_ := TypedCopy transposed (Tensor.alloc filter.dims)
      { self with
        filterBuffer_ := some filterBuffer_
        filterBufferImage_ := some
          (copyBufferToImage self.filter_image_format_ filterBuffer_ (filterW_ / 4) filterH_)
        ctx := self.ctx ++
          [.TypedCopy transposed,
           .Image2D self.filter_image_format_ (filterW_ / 4) filterH_,
           .enqueueCopyBufferToImage (filterW_ / 4, filterH_, 1)] }
    else self
  let self :=
    if (match self.mecBuffer_ with
        | none => true
        | some b => b.prod != W_out * H_in * at_ self.kernel_ 1 * C_in) then
      { self with mecBuffer_ := some [W_out, H_in, at_ self.kernel_ 1, C_in] }
    else self
  let self :=
    { self with
      ctx := self.ctx ++
        -- Lowering step.
        [.setArg .kMECLowering 0 .X,
         .setArg .kMECLowering 1 (.int H_in),
         .setArg .kMECLowering 2 (.int H_out),
         .setArg .kMECLowering 3 (.int W_in),
         .setArg .kMECLowering 4 (.int W_out),
         .setArg .kMECLowering 5 (.mecBuffer self.mecBuffer_),
         .enqueueNDRangeKernel .kMECLowering (W_out, H_in, C_in >>> 2),
         -- GEMM step.
         .setArg .kMECGemm 0 (.mecBuffer self.mecBuffer_),
         .setArg .kMECGemm 1 (.int (H_in * at_ self.kernel_ 0 * at_ self.stride_ 0 * C_in)),
         .setArg .kMECGemm 2 (.filterBufferImage self.filterBufferImage_),
         .setArg .kMECGemm 3 .Y,
         .setArg .kMECGemm 4 (.int C_out),
         .setArg .kMECGemm 5 (.int W_out),
         .setArg .kMECGemm 6 (.int C_out),
         .setArg .kMECGemm 7 (.int (at_ self.kernel_ 0 * at_ self.kernel_ 1 * C_in)),
         .setArg .kMECGemm 8 (.int H_out),
         .getWorkGroupInfo .kMECGemm,
         .enqueueNDRangeKernel .kMECGemm (C_out >>> 2, W_out >>> 3, H_out)] }
  (true, self)

/-- The member function `RunWithDirectConv`: the sliding-window convolution. -/
def RunWithDirectConv (self : ConvOp) (filter : Tensor)
    (N C_out C_in H_out H_in W_out W_in : Nat) : Bool × ConvOp :=
  let self :=
    if self.directKernel_.isNone then
      let kernel_args_ := self.kernel_args_ ++
        [("IN_CHANNEL", toString C_in), ("OUT_CHANNEL", toString C_out)]
      { self with
        kernel_args_ := kernel_args_
        directKernel_ := some { source := .kDirectConv, arg_list := kernel_args_ }
        ctx := self.ctx ++ [.BuildKernel .kDirectConv kernel_args_] }
    else self
  let self :=
    if self.filterStale filter then
      let filterBuffer_ := TypedCopy filter (Tensor.alloc filter.dims)
      let filterW_ := at_ self.kernel_ 0 * at_ self.kernel_ 1 * C_in
      let filterH_ := C_out
      let format : ImageFormat :=
        match self.T with
        | .float => .RGBA_FLOAT
        | .cl_half => .RGBA_HALF_FLOAT
      { self with
        filterBuffer_ := some filterBuffer_
        filterBufferImage_ := some (copyBufferToImage format filterBuffer_ (filterW_ / 4) filterH_)
        ctx := self.ctx ++
          [.TypedCopy filter,
           .Image2D format (filterW_ / 4) filterH_,
           .enqueueCopyBufferToImage (filterW_ / 4, filterH_, 1)] }
    else self
  let self :=
    { self with
      ctx := self.ctx ++
        [.setArg .kDirectConv 0 (.filterBufferImage self.filterBufferImage_),
         .setArg .kDirectConv 1 .X,
         .setArg .kDirectConv 2 (.int H_in),
         .setArg .kDirectConv 3 (.int H_out),
         .setArg .kDirectConv 4 (.int W_in),
         .setArg .kDirectConv 5 (.int W_out),
         .setArg .kDirectConv 6 .Y,
         .enqueueNDRangeKernel .kDirectConv (W_out >>> 2, C_out >>> 2, H_out)] }
  (true, self)

/-! ## The entry points -/

/-- The member function `RunOnDeviceWithOrderNCHW`. -/
def RunOnDeviceWithOrderNCHW (SetOutputSize : OutputSizer) (self : ConvOp)
    (X filter : Tensor) : Except (String × ConvOp) (Bool × ConvOp) := do
  CAFFE_ENFORCE_EQ self X.dims.length 4 "X.dims().size() == 4"
  let N := X.dim 0
  let H_in := X.dim 2
  let W_in := X.dim 3
  let C_in := X.dim 1
  CAFFE_ENFORCE_EQ self filter.ndim 4 "filter.ndim() == 4"
  CAFFE_ENFORCE_EQ self (filter.dim 1 * self.group_) C_in "filter.dim(1) * group_ == C_in"
  CAFFE_ENFORCE_EQ self (filter.dim 2) (at_ self.kernel_ 0) "filter.dim(2) == kernel_[0]"
  CAFFE_ENFORCE_EQ self (filter.dim 3) (at_ self.kernel_ 1) "filter.dim(3) == kernel_[1]"
  let C_out := filter.dim 0
  let Y ← (SetOutputSize X.dims (filter.dim 0)).mapError fun e => (e, self)
  let H_out := at_ Y 2
  let W_out := at_ Y 3
  if at_ self.kernel_ 0 = at_ self.kernel_ 1 then
    return Run1x1GConv self filter N C_out C_in H_out H_in W_out W_in self.group_
  return (false, self)

/-- The member function `RunOnDeviceWithOrderNHWC`. -/
def RunOnDeviceWithOrderNHWC (SetOutputSize : OutputSizer) (self : ConvOp)
    (X filter : Tensor) : Except (String × ConvOp) (Bool × ConvOp) := do
  -- Dimensionality setup
  CAFFE_ENFORCE_EQ self X.dims.length 4 "X.dims().size() == 4"
  let N := X.dim 0
  let H_in := X.dim 1
  let W_in := X.dim 2
  let C_in := X.dim 3
  CAFFE_ENFORCE_EQ self filter.ndim 4 "filter.ndim() == 4"
  CAFFE_ENFORCE_EQ self (filter.dim 3) C_in "filter.dim(3) == C_in"
  CAFFE_ENFORCE_EQ self (filter.dim 1) (at_ self.kernel_ 0) "filter.dim(1) == kernel_[0]"
  CAFFE_ENFORCE_EQ self (filter.dim 2) (at_ self.kernel_ 1) "filter.dim(2) == kernel_[1]"
  let C_out := filter.dim 0
  let Y ← (SetOutputSize X.dims (filter.dim 0)).mapError fun e => (e, self)
  let H_out := at_ Y 1
  let W_out := at_ Y 2
  if C_in ≥ 128 || self.use_MEC then
    return RunWithMECConv self filter N C_out C_in H_out H_in W_out W_in
  else
    return RunWithDirectConv self filter N C_out C_in H_out H_in W_out W_in

/-- A call through the entry point of the given storage order. -/
def RunOnDeviceWithOrder (SetOutputSize : OutputSizer) (self : ConvOp)
    (order : StorageOrder) (X filter : Tensor) : Except (String × ConvOp) (Bool × ConvOp) :=
  match order with
  | .NCHW => RunOnDeviceWithOrderNCHW SetOutputSize self X filter
  | .NHWC => RunOnDeviceWithOrderNHWC SetOutputSize self X filter

/-- The instance after a call on `self`: the state the call returns, or the state in
which its exception leaves the instance. -/
def ConvOp.after (self : ConvOp) (r : Except (String × ConvOp) (Bool × ConvOp)) : ConvOp :=
  match r with
  | .ok (_, self') => self'
  | .error (_, self') => self'

/-- A sequence of calls on one instance, each given by its entry point, its input and
its filter. -/
def runCalls (SetOutputSize : OutputSizer) (self : ConvOp) :
    List (StorageOrder × Tensor × Tensor) → ConvOp
  | [] => self
  | (order, X, filter) :: rest =>
    runCalls SetOutputSize
      (self.after (RunOnDeviceWithOrder SetOutputSize self order X filter)) rest

/-- The requests issued between two states of one instance. -/
def issued (before after : ConvOp) : List DeviceCall :=
  after.ctx.drop before.ctx.length

/-- An output-size computation for experiments: stride one, no padding, channel-minor
input `[N, H, W, C]`. -/
def outputNHWC (K : Nat) : OutputSizer := fun X C_out =>
  .ok [at_ X 0, at_ X 1 + 1 - K, at_ X 2 + 1 - K, C_out]

/-- An output-size computation for experiments: stride one, no padding, channel-major
input `[N, C, H, W]`. -/
def outputNCHW (K : Nat) : OutputSizer := fun X C_out =>
  .ok [at_ X 0, C_out, at_ X 2 + 1 - K, at_ X 3 + 1 - K]

/-- The programs dispatched by a list of requests, in order. -/
def dispatched (calls : List DeviceCall) : List KernelSource :=
  calls.filterMap fun
    | .enqueueNDRangeKernel k _ => some k
    | _ => none

/-- The index spaces of the dispatches of a list of requests, in order. -/
def indexSpaces (calls : List DeviceCall) : List (KernelSource × Nat × Nat × Nat) :=
  calls.filterMap fun
    | .enqueueNDRangeKernel k g => some (k, g)
    | _ => none

/-- The programs compiled by a list of requests, in order. -/
def compiled (calls : List DeviceCall) : List KernelSource :=
  calls.filterMap fun
    | .BuildKernel k _ => some k
    | _ => none

/-- The tensors uploaded by a list of requests, in order. -/
def uploads (calls : List DeviceCall) : List Tensor :=
  calls.filterMap fun
    | .TypedCopy t => some t
    | _ => none

/-- The images created by a list of requests, as width and height, in order. -/
def images (calls : List DeviceCall) : List (Nat × Nat) :=
  calls.filterMap fun
    | .Image2D _ w h => some (w, h)
    | _ => none

/-- A tensor of the given extents with the elements `0, 1, 2, ..`, for experiments. -/
def iota (dims : List Nat) : Tensor :=
  { dims := dims, data := (List.range dims.prod).map Int.ofNat }

/-- An instance for the channel-minor experiments: `float` elements, a `K`x`K` kernel, stride
one, one group. -/
def nhwcOp (K : Nat) (use_MEC : Bool) : ConvOp :=
  ConvOp.members .float [K, K] [1, 1] 1 use_MEC

/-- An instance for the channel-major experiments: `float` elements, a `K`x`K` kernel, stride
one, `G` groups. -/
def nchwOp (K G : Nat) : ConvOp :=
  ConvOp.members .float [K, K] [1, 1] G false

/-- The image format that `RunWithDirectConv` derives from the element type. -/
def directFormat (T : ElemType) : ImageFormat :=
  match T with
  | .float => .RGBA_FLOAT
  | .cl_half => .RGBA_HALF_FLOAT

/-- The device filter buffer that the packing block of `RunWithMECConv` builds from a
filter: the transposed filter, uploaded. -/
def mecBuffer (filter : Tensor) (C_out C_in K0 K1 : Nat) : Tensor :=
  TypedCopy (transposedFilter filter (C_in * K1 * K0) C_out) (Tensor.alloc filter.dims)

/-- The device filter image that the packing block of `RunWithMECConv` builds from a
filter: `C_out / 4` texels wide, `C_in * K * K` texels high, read from the transposed
filter. -/
def mecImage (format : ImageFormat) (filter : Tensor) (C_out C_in K0 K1 : Nat) : Image2D :=
  copyBufferToImage format (mecBuffer filter C_out C_in K0 K1) (C_out / 4) (C_in * K1 * K0)

/-- The device filter image that the packing block of `RunWithDirectConv` builds from a
filter: `K * K * C_in / 4` texels wide, `C_out` texels high, read from the filter as it
is. -/
def directImage (T : ElemType) (filter : Tensor) (C_out C_in K0 K1 : Nat) : Image2D :=
  copyBufferToImage (directFormat T) (TypedCopy filter (Tensor.alloc filter.dims))
    (K0 * K1 * C_in / 4) C_out

/-- Two states of an instance agree on the members that are fixed at construction. -/
def sameConfig (a b : ConvOp) : Prop :=
  a.T = b.T ∧ a.kernel_ = b.kernel_ ∧ a.stride_ = b.stride_ ∧
    a.group_ = b.group_ ∧ a.filter_image_format_ = b.filter_image_format_ ∧
    a.use_MEC = b.use_MEC

/-- The history of an instance agrees with its program members: a program member is set
exactly when its program has been compiled, exactly when its strategy has been
dispatched, and no program has been compiled twice. -/
def programsConsistent (self : ConvOp) : Prop :=
  (self.gemm1x1Kernel_.isSome ↔ KernelSource.k1x1Gemm ∈ dispatched self.ctx) ∧
  (self.loweringKernel_.isSome ↔ KernelSource.kMECGemm ∈ dispatched self.ctx) ∧
  (self.gemmKernel_.isSome ↔ KernelSource.kMECGemm ∈ dispatched self.ctx) ∧
  (self.directKernel_.isSome ↔ KernelSource.kDirectConv ∈ dispatched self.ctx) ∧
  (self.gemm1x1Kernel_.isSome ↔ KernelSource.k1x1Gemm ∈ compiled self.ctx) ∧
  (self.loweringKernel_.isSome ↔ KernelSource.kMECLowering ∈ compiled self.ctx) ∧
  (self.gemmKernel_.isSome ↔ KernelSource.kMECGemm ∈ compiled self.ctx) ∧
  (self.directKernel_.isSome ↔ KernelSource.kDirectConv ∈ compiled self.ctx) ∧
  (compiled self.ctx).Nodup

/-- The filter images bound to kernel arguments by a list of requests, in order, each
with the program it is bound to. -/
def boundImages (calls : List DeviceCall) : List (KernelSource × Option Image2D) :=
  calls.filterMap fun
    | .setArg k _ (.filterBufferImage img) => some (k, img)
    | _ => none

/-- The instance `nhwcOp 3 false` after one call with a 5x5 input of four channels and a
filter of four output channels, for experiments. -/
def afterFirstCall : ConvOp :=
  runCalls (outputNHWC 3) (nhwcOp 3 false) [(.NHWC, iota [1, 5, 5, 4], iota [4, 3, 3, 4])]

/-- The instance `afterFirstCall` after a second call of the same shape. -/
def afterSecondCall : ConvOp :=
  (RunWithDirectConv afterFirstCall (iota [4, 3, 3, 4]) 1 4 4 3 5 3 5).2

/-- The instance `afterFirstCall` after a call with eight channels in and out. -/
def afterLargerCall : ConvOp :=
  (RunWithDirectConv afterFirstCall (iota [8, 3, 3, 8]) 1 8 8 3 5 3 5).2

/-- The instance `nhwcOp 1 false` after a call with `C_in = 128` and `C_out = 64`, which
selects Lowering+GEMM. -/
def afterWideCall : ConvOp :=
  runCalls (outputNHWC 1) (nhwcOp 1 false) [(.NHWC, iota [1, 8, 8, 128], iota [64, 1, 1, 128])]

/-- The instance `afterWideCall` after a call with `C_in = 64` and `C_out = 128`, which
selects Direct-Convolution; the filter has as many elements as before. -/
def afterNarrowCall : ConvOp :=
  runCalls (outputNHWC 1) afterWideCall [(.NHWC, iota [1, 8, 8, 64], iota [128, 1, 1, 64])]

/-- The image that the strategy selected for `C_in` on this instance packs from the filter
`f`: the image of `RunWithMECConv` when `C_in ≥ 128` or `use_MEC` is set, the image of
`RunWithDirectConv` otherwise. -/
def strategyImage (self : ConvOp) (f : Tensor) (C_out C_in : Nat) : Image2D :=
  if C_in ≥ 128 ∨ self.use_MEC = true
  then mecImage self.filter_image_format_ f C_out C_in (at_ self.kernel_ 0) (at_ self.kernel_ 1)
  else directImage self.T f C_out C_in (at_ self.kernel_ 0) (at_ self.kernel_ 1)

/-- The extents of the filter that was packed most recently, read off a log of requests:
the extents of the last tensor uploaded. -/
def lastPackedDims (calls : List DeviceCall) : Option (List Nat) :=
  (uploads calls).getLast?.map Tensor.dims

/-- The cached filter of the instance, if there is one, was packed from one of the filters
`fs` by the strategy selected for its `C_in`, and it is the filter packed most recently. -/
def cachedFrom (self : ConvOp) (fs : List Tensor) : Prop :=
  self.filterBuffer_ = none ∨
    ∃ f ∈ fs, ∃ C_out C_in : Nat,
      f.dims = [C_out, at_ self.kernel_ 0, at_ self.kernel_ 1, C_in] ∧
      lastPackedDims self.ctx = some f.dims ∧
      self.filterBuffer_.map Tensor.size = some f.size ∧
      self.filterBufferImage_ = some (strategyImage self f C_out C_in)

/-! ## Strategy selection and shape validation -/

theorem enforce_eq_ok (self : ConvOp) (a b : Nat) (w : String) (h : a = b) :
    CAFFE_ENFORCE_EQ self a b w = .ok () := by
  simp [CAFFE_ENFORCE_EQ, h]

theorem enforce_eq_error (self : ConvOp) (a b : Nat) (w : String) (h : a ≠ b) :
    CAFFE_ENFORCE_EQ self a b w = .error (w, self) := by
  simp [CAFFE_ENFORCE_EQ, h]

theorem RunWithMECConv_fst (self : ConvOp) (filter : Tensor)
    (N C_out C_in H_out H_in W_out W_in : Nat) :
    (RunWithMECConv self filter N C_out C_in H_out H_in W_out W_in).1 = true := rfl

theorem RunWithDirectConv_fst (self : ConvOp) (filter : Tensor)
    (N C_out C_in H_out H_in W_out W_in : Nat) :
    (RunWithDirectConv self filter N C_out C_in H_out H_in W_out W_in).1 = true := rfl

theorem RunWithMECConv_dispatched (self : ConvOp) (filter : Tensor)
    (N C_out C_in H_out H_in W_out W_in : Nat) :
    dispatched (issued self (RunWithMECConv self filter N C_out C_in H_out H_in W_out W_in).2)
      = [.kMECLowering, .kMECGemm] := by
  unfold RunWithMECConv issued
  simp only []
  split_ifs <;> simp [dispatched]

theorem RunWithDirectConv_dispatched (self : ConvOp) (filter : Tensor)
    (N C_out C_in H_out H_in W_out W_in : Nat) :
    dispatched (issued self (RunWithDirectConv self filter N C_out C_in H_out H_in W_out W_in).2)
      = [.kDirectConv] := by
  unfold RunWithDirectConv issued
  simp only []
  split_ifs <;> simp [dispatched]

theorem RunOnDeviceWithOrderNHWC_valid (S : OutputSizer) (self : ConvOp) (X filter : Tensor)
    (Y : List Nat)
    (hX : X.dims.length = 4) (hnd : filter.ndim = 4) (hC : filter.dim 3 = X.dim 3)
    (hk0 : filter.dim 1 = at_ self.kernel_ 0) (hk1 : filter.dim 2 = at_ self.kernel_ 1)
    (hY : S X.dims (filter.dim 0) = .ok Y) :
    RunOnDeviceWithOrderNHWC S self X filter =
      .ok (if X.dim 3 ≥ 128 ∨ self.use_MEC = true
        then RunWithMECConv self filter (X.dim 0) (filter.dim 0) (X.dim 3)
              (at_ Y 1) (X.dim 1) (at_ Y 2) (X.dim 2)
        else RunWithDirectConv self filter (X.dim 0) (filter.dim 0) (X.dim 3)
              (at_ Y 1) (X.dim 1) (at_ Y 2) (X.dim 2)) := by
  unfold RunOnDeviceWithOrderNHWC
  simp only [CAFFE_ENFORCE_EQ, hX, hnd, hC, hk0, hk1, hY, bind, Except.bind, pure, Except.pure,
    Except.mapError, if_true]
  by_cases h : X.dim 3 ≥ 128 ∨ self.use_MEC = true
  · simp [h]
  · simp [h]

/-- C1: a channel-minor call that passes shape validation runs exactly one strategy,
Lowering+GEMM when `C_in ≥ 128` or `use_MEC` is set and Direct-Convolution otherwise;
the result of the call is the result of that strategy, the programs it dispatches are
those of that strategy, and the choice reads nothing but `C_in` and `use_MEC`. -/
theorem nhwc_runs_exactly_one_strategy (S : OutputSizer) (self : ConvOp) (X filter : Tensor)
    (Y : List Nat)
    (hX : X.dims.length = 4) (hnd : filter.ndim = 4) (hC : filter.dim 3 = X.dim 3)
    (hk0 : filter.dim 1 = at_ self.kernel_ 0) (hk1 : filter.dim 2 = at_ self.kernel_ 1)
    (hY : S X.dims (filter.dim 0) = .ok Y) :
    RunOnDeviceWithOrderNHWC S self X filter =
      .ok (if X.dim 3 ≥ 128 ∨ self.use_MEC = true
        then RunWithMECConv self filter (X.dim 0) (filter.dim 0) (X.dim 3)
              (at_ Y 1) (X.dim 1) (at_ Y 2) (X.dim 2)
        else RunWithDirectConv self filter (X.dim 0) (filter.dim 0) (X.dim 3)
              (at_ Y 1) (X.dim 1) (at_ Y 2) (X.dim 2)) ∧
    dispatched (issued self (self.after (RunOnDeviceWithOrderNHWC S self X filter))) =
      (if X.dim 3 ≥ 128 ∨ self.use_MEC = true
        then [KernelSource.kMECLowering, KernelSource.kMECGemm]
        else [KernelSource.kDirectConv]) := by
  have h := RunOnDeviceWithOrderNHWC_valid S self X filter Y hX hnd hC hk0 hk1 hY
  refine ⟨h, ?_⟩
  rw [h]
  by_cases hc : X.dim 3 ≥ 128 ∨ self.use_MEC = true
  · simp only [hc, if_true, ConvOp.after]
    exact RunWithMECConv_dispatched _ _ _ _ _ _ _ _ _
  · simp only [hc, if_false, ConvOp.after]
    exact RunWithDirectConv_dispatched _ _ _ _ _ _ _ _ _

/-- Witness of C1 at the small test shape of the spec: `C_in = 4`, `C_out = 4`, a 5x5
input, a 3x3 kernel, `use_MEC` unset, hence Direct-Convolution. -/
theorem nhwc_runs_exactly_one_strategy_witness :
    ((iota [1, 5, 5, 4]).dims.length = 4 ∧ (iota [4, 3, 3, 4]).ndim = 4 ∧
      (iota [4, 3, 3, 4]).dim 3 = (iota [1, 5, 5, 4]).dim 3 ∧
      (iota [4, 3, 3, 4]).dim 1 = at_ (nhwcOp 3 false).kernel_ 0 ∧
      (iota [4, 3, 3, 4]).dim 2 = at_ (nhwcOp 3 false).kernel_ 1 ∧
      outputNHWC 3 (iota [1, 5, 5, 4]).dims ((iota [4, 3, 3, 4]).dim 0) = .ok [1, 3, 3, 4]) ∧
    (RunOnDeviceWithOrderNHWC (outputNHWC 3) (nhwcOp 3 false) (iota [1, 5, 5, 4])
        (iota [4, 3, 3, 4]) =
      .ok (if (iota [1, 5, 5, 4]).dim 3 ≥ 128 ∨ (nhwcOp 3 false).use_MEC = true
        then RunWithMECConv (nhwcOp 3 false) (iota [4, 3, 3, 4]) ((iota [1, 5, 5, 4]).dim 0)
              ((iota [4, 3, 3, 4]).dim 0) ((iota [1, 5, 5, 4]).dim 3)
              (at_ [1, 3, 3, 4] 1) ((iota [1, 5, 5, 4]).dim 1) (at_ [1, 3, 3, 4] 2)
              ((iota [1, 5, 5, 4]).dim 2)
        else RunWithDirectConv (nhwcOp 3 false) (iota [4, 3, 3, 4]) ((iota [1, 5, 5, 4]).dim 0)
              ((iota [4, 3, 3, 4]).dim 0) ((iota [1, 5, 5, 4]).dim 3)
              (at_ [1, 3, 3, 4] 1) ((iota [1, 5, 5, 4]).dim 1) (at_ [1, 3, 3, 4] 2)
              ((iota [1, 5, 5, 4]).dim 2)) ∧
    dispatched (issued (nhwcOp 3 false) ((nhwcOp 3 false).after
        (RunOnDeviceWithOrderNHWC (outputNHWC 3) (nhwcOp 3 false) (iota [1, 5, 5, 4])
          (iota [4, 3, 3, 4])))) =
      (if (iota [1, 5, 5, 4]).dim 3 ≥ 128 ∨ (nhwcOp 3 false).use_MEC = true
        then [KernelSource.kMECLowering, KernelSource.kMECGemm]
        else [KernelSource.kDirectConv])) :=
  ⟨⟨by decide, by decide, by decide, by decide, by decide, rfl⟩,
    nhwc_runs_exactly_one_strategy (outputNHWC 3) (nhwcOp 3 false) (iota [1, 5, 5, 4])
      (iota [4, 3, 3, 4]) [1, 3, 3, 4] (by decide) (by decide) (by decide) (by decide)
      (by decide) rfl⟩

/-- C2, the code at the failing input: an instance with a 3x3 kernel in channel-major
layout is constructed without error, and a call with valid shapes (input `[1, 4, 5, 5]`,
filter `[8, 4, 3, 3]`) returns true after compiling the 1x1 GEMM program, uploading the
filter and dispatching the program. -/
theorem nchw_3x3_kernel_runs_1x1_gemm :
    ConvOp.new .float [3, 3] [1, 1] 1 false = .ok (nchwOp 3 1) ∧
    (RunOnDeviceWithOrderNCHW (outputNCHW 3) (nchwOp 3 1) (iota [1, 4, 5, 5])
        (iota [8, 4, 3, 3])).toOption.map
      (fun r => (r.1, compiled (issued (nchwOp 3 1) r.2),
        (uploads (issued (nchwOp 3 1) r.2)).map Tensor.dims,
        indexSpaces (issued (nchwOp 3 1) r.2))) =
      some (true, [KernelSource.k1x1Gemm], [[8, 4, 3, 3]],
        [(KernelSource.k1x1Gemm, 2, 1, 1)]) := by
  constructor
  · rfl
  · rfl

theorem mul_group_eq_iff (a G c : Nat) (hG : 1 ≤ G) :
    a * G = c ↔ c % G = 0 ∧ a = c / G := by
  constructor
  · intro h
    subst h
    exact ⟨Nat.mul_mod_left a G, (Nat.mul_div_cancel a (by omega)).symm⟩
  · rintro ⟨hm, ha⟩
    rw [ha]
    exact Nat.div_mul_cancel (Nat.dvd_of_mod_eq_zero hm)

/-- C3: in a channel-major call with at least one group, a 4-D input and a 4-D filter
whose spatial extents equal the kernel size (extents within the range of `int`, and an
output size that can be computed), the call gets through shape validation exactly when
`C_in % G = 0` and `filter.dim(1) = C_in / G`.  Otherwise the check
`filter.dim(1) * group_ == C_in` throws, and the exception leaves the instance exactly as
the call found it: no member has changed and no request has been issued to the device,
so no program has been compiled, no buffer uploaded and no kernel dispatched. -/
theorem nchw_validation_iff_group_divides (S : OutputSizer) (self : ConvOp) (X filter : Tensor)
    (Y : List Nat) (hG : 1 ≤ self.group_)
    (hX : X.dims.length = 4) (hnd : filter.ndim = 4)
    (hk0 : filter.dim 2 = at_ self.kernel_ 0) (hk1 : filter.dim 3 = at_ self.kernel_ 1)
    (hint : X.dim 1 ≤ INT_MAX ∧ filter.dim 1 ≤ INT_MAX ∧ self.group_ ≤ INT_MAX)
    (hY : S X.dims (filter.dim 0) = .ok Y) :
    ((∃ r, RunOnDeviceWithOrderNCHW S self X filter = .ok r) ↔
      (X.dim 1 % self.group_ = 0 ∧ filter.dim 1 = X.dim 1 / self.group_)) ∧
    (¬ (X.dim 1 % self.group_ = 0 ∧ filter.dim 1 = X.dim 1 / self.group_) →
      RunOnDeviceWithOrderNCHW S self X filter =
        .error ("filter.dim(1) * group_ == C_in", self) ∧
      self.after (RunOnDeviceWithOrderNCHW S self X filter) = self ∧
      issued self (self.after (RunOnDeviceWithOrderNCHW S self X filter)) = [] ∧
      compiled (issued self (self.after (RunOnDeviceWithOrderNCHW S self X filter))) = [] ∧
      uploads (issued self (self.after (RunOnDeviceWithOrderNCHW S self X filter))) = [] ∧
      dispatched (issued self (self.after (RunOnDeviceWithOrderNCHW S self X filter))) = []) := by
  rw [← mul_group_eq_iff _ _ _ hG]
  by_cases h : filter.dim 1 * self.group_ = X.dim 1
  · refine ⟨⟨fun _ => h, fun _ => ?_⟩, fun hn => absurd h hn⟩
    unfold RunOnDeviceWithOrderNCHW
    simp only [CAFFE_ENFORCE_EQ, hX, hnd, h, hk0, hk1, hY, bind, Except.bind, pure, Except.pure,
      Except.mapError, if_true]
    split_ifs <;> exact ⟨_, rfl⟩
  · have herr : RunOnDeviceWithOrderNCHW S self X filter =
        .error ("filter.dim(1) * group_ == C_in", self) := by
      unfold RunOnDeviceWithOrderNCHW
      simp only [CAFFE_ENFORCE_EQ, hX, hnd, h, bind, Except.bind, if_true, if_false]
    refine ⟨⟨fun ⟨r, hr⟩ => ?_, fun hc => absurd hc h⟩, fun _ => ⟨herr, ?_⟩⟩
    · rw [herr] at hr
      cases hr
    · rw [herr]
      simp [ConvOp.after, issued, compiled, uploads, dispatched]

/-- Witness of C3, at a call that passes (four input channels in two groups, filter
`[8, 2, 1, 1]`) and at a call that is refused (filter `[8, 3, 1, 1]`). -/
theorem nchw_validation_iff_group_divides_witness :
    ((1 ≤ (nchwOp 1 2).group_ ∧ (iota [1, 4, 2, 2]).dims.length = 4 ∧
      (iota [8, 2, 1, 1]).ndim = 4 ∧
      (iota [8, 2, 1, 1]).dim 2 = at_ (nchwOp 1 2).kernel_ 0 ∧
      (iota [8, 2, 1, 1]).dim 3 = at_ (nchwOp 1 2).kernel_ 1 ∧
      ((iota [1, 4, 2, 2]).dim 1 ≤ INT_MAX ∧ (iota [8, 2, 1, 1]).dim 1 ≤ INT_MAX ∧
        (nchwOp 1 2).group_ ≤ INT_MAX) ∧
      outputNCHW 1 (iota [1, 4, 2, 2]).dims ((iota [8, 2, 1, 1]).dim 0) = .ok [1, 8, 2, 2]) ∧
    (((∃ r, RunOnDeviceWithOrderNCHW (outputNCHW 1) (nchwOp 1 2) (iota [1, 4, 2, 2])
          (iota [8, 2, 1, 1]) = .ok r) ↔
      ((iota [1, 4, 2, 2]).dim 1 % (nchwOp 1 2).group_ = 0 ∧
        (iota [8, 2, 1, 1]).dim 1 = (iota [1, 4, 2, 2]).dim 1 / (nchwOp 1 2).group_)) ∧
    (¬ ((iota [1, 4, 2, 2]).dim 1 % (nchwOp 1 2).group_ = 0 ∧
        (iota [8, 2, 1, 1]).dim 1 = (iota [1, 4, 2, 2]).dim 1 / (nchwOp 1 2).group_) →
      RunOnDeviceWithOrderNCHW (outputNCHW 1) (nchwOp 1 2) (iota [1, 4, 2, 2])
          (iota [8, 2, 1, 1]) = .error ("filter.dim(1) * group_ == C_in", nchwOp 1 2) ∧
      (nchwOp 1 2).after (RunOnDeviceWithOrderNCHW (outputNCHW 1)
        (nchwOp 1 2) (iota [1, 4, 2, 2]) (iota [8, 2, 1, 1])) = nchwOp 1 2 ∧
      issued (nchwOp 1 2) ((nchwOp 1 2).after (RunOnDeviceWithOrderNCHW (outputNCHW 1)
        (nchwOp 1 2) (iota [1, 4, 2, 2]) (iota [8, 2, 1, 1]))) = [] ∧
      compiled (issued (nchwOp 1 2) ((nchwOp 1 2).after (RunOnDeviceWithOrderNCHW
        (outputNCHW 1) (nchwOp 1 2) (iota [1, 4, 2, 2]) (iota [8, 2, 1, 1])))) = [] ∧
      uploads (issued (nchwOp 1 2) ((nchwOp 1 2).after (RunOnDeviceWithOrderNCHW
        (outputNCHW 1) (nchwOp 1 2) (iota [1, 4, 2, 2]) (iota [8, 2, 1, 1])))) = [] ∧
      dispatched (issued (nchwOp 1 2) ((nchwOp 1 2).after (RunOnDeviceWithOrderNCHW
        (outputNCHW 1) (nchwOp 1 2) (iota [1, 4, 2, 2]) (iota [8, 2, 1, 1])))) = []))) ∧
    ((1 ≤ (nchwOp 1 2).group_ ∧ (iota [1, 4, 2, 2]).dims.length = 4 ∧
      (iota [8, 3, 1, 1]).ndim = 4 ∧
      (iota [8, 3, 1, 1]).dim 2 = at_ (nchwOp 1 2).kernel_ 0 ∧
      (iota [8, 3, 1, 1]).dim 3 = at_ (nchwOp 1 2).kernel_ 1 ∧
      ((iota [1, 4, 2, 2]).dim 1 ≤ INT_MAX ∧ (iota [8, 3, 1, 1]).dim 1 ≤ INT_MAX ∧
        (nchwOp 1 2).group_ ≤ INT_MAX) ∧
      outputNCHW 1 (iota [1, 4, 2, 2]).dims ((iota [8, 3, 1, 1]).dim 0) = .ok [1, 8, 2, 2] ∧
      ¬ ((iota [1, 4, 2, 2]).dim 1 % (nchwOp 1 2).group_ = 0 ∧
        (iota [8, 3, 1, 1]).dim 1 = (iota [1, 4, 2, 2]).dim 1 / (nchwOp 1 2).group_)) ∧
    (RunOnDeviceWithOrderNCHW (outputNCHW 1) (nchwOp 1 2) (iota [1, 4, 2, 2])
          (iota [8, 3, 1, 1]) = .error ("filter.dim(1) * group_ == C_in", nchwOp 1 2) ∧
      (nchwOp 1 2).after (RunOnDeviceWithOrderNCHW (outputNCHW 1)
        (nchwOp 1 2) (iota [1, 4, 2, 2]) (iota [8, 3, 1, 1])) = nchwOp 1 2 ∧
      issued (nchwOp 1 2) ((nchwOp 1 2).after (RunOnDeviceWithOrderNCHW (outputNCHW 1)
        (nchwOp 1 2) (iota [1, 4, 2, 2]) (iota [8, 3, 1, 1]))) = [] ∧
      compiled (issued (nchwOp 1 2) ((nchwOp 1 2).after (RunOnDeviceWithOrderNCHW
        (outputNCHW 1) (nchwOp 1 2) (iota [1, 4, 2, 2]) (iota [8, 3, 1, 1])))) = [] ∧
      uploads (issued (nchwOp 1 2) ((nchwOp 1 2).after (RunOnDeviceWithOrderNCHW
        (outputNCHW 1) (nchwOp 1 2) (iota [1, 4, 2, 2]) (iota [8, 3, 1, 1])))) = [] ∧
      dispatched (issued (nchwOp 1 2) ((nchwOp 1 2).after (RunOnDeviceWithOrderNCHW
        (outputNCHW 1) (nchwOp 1 2) (iota [1, 4, 2, 2]) (iota [8, 3, 1, 1])))) = [])) :=
  ⟨⟨⟨by decide, by decide, by decide, by decide, by decide,
      ⟨by decide, by decide, by decide⟩, rfl⟩,
    nchw_validation_iff_group_divides (outputNCHW 1) (nchwOp 1 2) (iota [1, 4, 2, 2])
      (iota [8, 2, 1, 1]) [1, 8, 2, 2] (by decide) (by decide) (by decide) (by decide)
      (by decide) ⟨by decide, by decide, by decide⟩ rfl⟩,
   ⟨⟨by decide, by decide, by decide, by decide, by decide,
      ⟨by decide, by decide, by decide⟩, rfl, by decide⟩,
    (nchw_validation_iff_group_divides (outputNCHW 1) (nchwOp 1 2) (iota [1, 4, 2, 2])
      (iota [8, 3, 1, 1]) [1, 8, 2, 2] (by decide) (by decide) (by decide) (by decide)
      (by decide) ⟨by decide, by decide, by decide⟩ rfl).2 (by decide)⟩⟩

/-! ## Index spaces of the dispatches -/

theorem Run1x1GConv_fst (self : ConvOp) (filter : Tensor)
    (N C_out C_in H_out H_in W_out W_in G : Nat) :
    (Run1x1GConv self filter N C_out C_in H_out H_in W_out W_in G).1 = true := rfl

theorem Run1x1GConv_indexSpaces (self : ConvOp) (filter : Tensor)
    (N C_out C_in H_out H_in W_out W_in G : Nat) :
    indexSpaces (issued self (Run1x1GConv self filter N C_out C_in H_out H_in W_out W_in G).2)
      = [(.k1x1Gemm, H_out * W_out / 4, C_out / G / 8, G)] := by
  unfold Run1x1GConv issued
  simp only []
  split_ifs <;> simp [indexSpaces, Nat.shiftRight_eq_div_pow]

theorem RunWithMECConv_indexSpaces (self : ConvOp) (filter : Tensor)
    (N C_out C_in H_out H_in W_out W_in : Nat) :
    indexSpaces (issued self (RunWithMECConv self filter N C_out C_in H_out H_in W_out W_in).2)
      = [(.kMECLowering, W_out, H_in, C_in / 4), (.kMECGemm, C_out / 4, W_out / 8, H_out)] := by
  unfold RunWithMECConv issued
  simp only []
  split_ifs <;> simp [indexSpaces, Nat.shiftRight_eq_div_pow]

theorem RunWithDirectConv_indexSpaces (self : ConvOp) (filter : Tensor)
    (N C_out C_in H_out H_in W_out W_in : Nat) :
    indexSpaces (issued self (RunWithDirectConv self filter N C_out C_in H_out H_in W_out W_in).2)
      = [(.kDirectConv, W_out / 4, C_out / 4, H_out)] := by
  unfold RunWithDirectConv issued
  simp only []
  split_ifs <;> simp [indexSpaces, Nat.shiftRight_eq_div_pow]

theorem RunOnDeviceWithOrderNCHW_valid (S : OutputSizer) (self : ConvOp) (X filter : Tensor)
    (Y : List Nat)
    (hX : X.dims.length = 4) (hnd : filter.ndim = 4)
    (hdiv : filter.dim 1 * self.group_ = X.dim 1)
    (hk0 : filter.dim 2 = at_ self.kernel_ 0) (hk1 : filter.dim 3 = at_ self.kernel_ 1)
    (hsq : at_ self.kernel_ 0 = at_ self.kernel_ 1)
    (hY : S X.dims (filter.dim 0) = .ok Y) :
    RunOnDeviceWithOrderNCHW S self X filter =
      .ok (Run1x1GConv self filter (X.dim 0) (filter.dim 0) (X.dim 1)
        (at_ Y 2) (X.dim 2) (at_ Y 3) (X.dim 3) self.group_) := by
  unfold RunOnDeviceWithOrderNCHW
  simp only [CAFFE_ENFORCE_EQ, hX, hnd, hdiv, hk0, hk1, hY, bind, Except.bind, pure, Except.pure,
    Except.mapError, if_true]
  simp [hsq]

theorem tiles_cover_iff (t n : Nat) (ht : 0 < t) : t * (n / t) ≥ n ↔ n % t = 0 := by
  have h1 := Nat.div_add_mod n t
  constructor
  · intro h
    omega
  · intro h
    omega

/-- C8 fails at the test shape of the spec (`G = 1`, `C_in = 4`, `C_out = 4`,
`H = W = 2`): the call returns true, yet its dispatch has the index space `(1, 0, 1)`,
whose output-channel extent is zero, so the tiles cover none of the four output
channels.  It also fails where every extent is positive: with `C_out = 12` and
`H = W = 3` the index space is `(2, 1, 1)`, which covers 8 of the 9 positions and 8 of
the 12 output channels. -/
theorem gemm1x1_test_shape_not_covered :
    ((RunOnDeviceWithOrderNCHW (outputNCHW 1) (nchwOp 1 1) (iota [1, 4, 2, 2])
        (iota [4, 4, 1, 1])).toOption.map
      (fun r => (r.1, indexSpaces (issued (nchwOp 1 1) r.2))) =
      some (true, [(KernelSource.k1x1Gemm, 1, 0, 1)]) ∧
    ¬ (8 * 0 ≥ (iota [4, 4, 1, 1]).dim 0 / (nchwOp 1 1).group_)) ∧
    ((RunOnDeviceWithOrderNCHW (outputNCHW 1) (nchwOp 1 1) (iota [1, 8, 3, 3])
        (iota [12, 8, 1, 1])).toOption.map
      (fun r => (r.1, indexSpaces (issued (nchwOp 1 1) r.2))) =
      some (true, [(KernelSource.k1x1Gemm, 2, 1, 1)]) ∧
    ¬ (4 * 2 ≥ 3 * 3) ∧
    ¬ (8 * 1 ≥ (iota [12, 8, 1, 1]).dim 0 / (nchwOp 1 1).group_)) := by
  refine ⟨⟨rfl, by decide⟩, rfl, by decide, by decide⟩

/-- C8 as amended: a valid Grouped-1x1-GEMM call with positive dimensions (at least one
group, positive output extents and output channels) returns true and issues one
dispatch, over the index space `((H_out*W_out)/4, (C_out/G)/8, G)` with both quotients
rounded down.  The 4-by-8 tiles cover all positions exactly when `H_out*W_out` is a
multiple of 4, and all output channels of a group exactly when `C_out/G` is a multiple
of 8; the extents are all positive exactly when `H_out*W_out ≥ 4` and `C_out/G ≥ 8`. -/
theorem gemm1x1_dispatch_rounds_down (S : OutputSizer) (self : ConvOp) (X filter : Tensor)
    (Y : List Nat)
    (hG : 1 ≤ self.group_)
    (hpos : 0 < at_ Y 2 ∧ 0 < at_ Y 3 ∧ 0 < filter.dim 0 ∧ 0 < X.dim 1)
    (hX : X.dims.length = 4) (hnd : filter.ndim = 4)
    (hdiv : filter.dim 1 * self.group_ = X.dim 1)
    (hk0 : filter.dim 2 = at_ self.kernel_ 0) (hk1 : filter.dim 3 = at_ self.kernel_ 1)
    (hsq : at_ self.kernel_ 0 = at_ self.kernel_ 1)
    (hY : S X.dims (filter.dim 0) = .ok Y) :
    (∃ self', RunOnDeviceWithOrderNCHW S self X filter = .ok (true, self') ∧
      indexSpaces (issued self self') =
        [(KernelSource.k1x1Gemm, at_ Y 2 * at_ Y 3 / 4,
          filter.dim 0 / self.group_ / 8, self.group_)]) ∧
    (4 * (at_ Y 2 * at_ Y 3 / 4) ≥ at_ Y 2 * at_ Y 3 ↔ at_ Y 2 * at_ Y 3 % 4 = 0) ∧
    (8 * (filter.dim 0 / self.group_ / 8) ≥ filter.dim 0 / self.group_ ↔
      filter.dim 0 / self.group_ % 8 = 0) ∧
    ((0 < at_ Y 2 * at_ Y 3 / 4 ∧ 0 < filter.dim 0 / self.group_ / 8 ∧ 0 < self.group_) ↔
      (4 ≤ at_ Y 2 * at_ Y 3 ∧ 8 ≤ filter.dim 0 / self.group_)) := by
  refine ⟨⟨(Run1x1GConv self filter (X.dim 0) (filter.dim 0) (X.dim 1)
      (at_ Y 2) (X.dim 2) (at_ Y 3) (X.dim 3) self.group_).2, ?_, ?_⟩,
    tiles_cover_iff 4 _ (by decide), tiles_cover_iff 8 _ (by decide), ?_⟩
  · rw [RunOnDeviceWithOrderNCHW_valid S self X filter Y hX hnd hdiv hk0 hk1 hsq hY]
    rfl
  · exact Run1x1GConv_indexSpaces _ _ _ _ _ _ _ _ _ _
  · omega

/-- Witness of C8 as amended: eight channels in and out, `H = W = 2`, one group. -/
theorem gemm1x1_dispatch_rounds_down_witness :
    (1 ≤ (nchwOp 1 1).group_ ∧
      (0 < at_ [1, 8, 2, 2] 2 ∧ 0 < at_ [1, 8, 2, 2] 3 ∧ 0 < (iota [8, 8, 1, 1]).dim 0 ∧
        0 < (iota [1, 8, 2, 2]).dim 1) ∧
      (iota [1, 8, 2, 2]).dims.length = 4 ∧ (iota [8, 8, 1, 1]).ndim = 4 ∧
      (iota [8, 8, 1, 1]).dim 1 * (nchwOp 1 1).group_ = (iota [1, 8, 2, 2]).dim 1 ∧
      (iota [8, 8, 1, 1]).dim 2 = at_ (nchwOp 1 1).kernel_ 0 ∧
      (iota [8, 8, 1, 1]).dim 3 = at_ (nchwOp 1 1).kernel_ 1 ∧
      at_ (nchwOp 1 1).kernel_ 0 = at_ (nchwOp 1 1).kernel_ 1 ∧
      outputNCHW 1 (iota [1, 8, 2, 2]).dims ((iota [8, 8, 1, 1]).dim 0) = .ok [1, 8, 2, 2]) ∧
    ((∃ self', RunOnDeviceWithOrderNCHW (outputNCHW 1) (nchwOp 1 1) (iota [1, 8, 2, 2])
          (iota [8, 8, 1, 1]) = .ok (true, self') ∧
      indexSpaces (issued (nchwOp 1 1) self') =
        [(KernelSource.k1x1Gemm, at_ [1, 8, 2, 2] 2 * at_ [1, 8, 2, 2] 3 / 4,
          (iota [8, 8, 1, 1]).dim 0 / (nchwOp 1 1).group_ / 8, (nchwOp 1 1).group_)]) ∧
    (4 * (at_ [1, 8, 2, 2] 2 * at_ [1, 8, 2, 2] 3 / 4) ≥ at_ [1, 8, 2, 2] 2 * at_ [1, 8, 2, 2] 3 ↔
      at_ [1, 8, 2, 2] 2 * at_ [1, 8, 2, 2] 3 % 4 = 0) ∧
    (8 * ((iota [8, 8, 1, 1]).dim 0 / (nchwOp 1 1).group_ / 8) ≥
        (iota [8, 8, 1, 1]).dim 0 / (nchwOp 1 1).group_ ↔
      (iota [8, 8, 1, 1]).dim 0 / (nchwOp 1 1).group_ % 8 = 0) ∧
    ((0 < at_ [1, 8, 2, 2] 2 * at_ [1, 8, 2, 2] 3 / 4 ∧
        0 < (iota [8, 8, 1, 1]).dim 0 / (nchwOp 1 1).group_ / 8 ∧ 0 < (nchwOp 1 1).group_) ↔
      (4 ≤ at_ [1, 8, 2, 2] 2 * at_ [1, 8, 2, 2] 3 ∧
        8 ≤ (iota [8, 8, 1, 1]).dim 0 / (nchwOp 1 1).group_))) :=
  ⟨⟨by decide, ⟨by decide, by decide, by decide, by decide⟩, by decide, by decide, by decide,
      by decide, by decide, by decide, rfl⟩,
    gemm1x1_dispatch_rounds_down (outputNCHW 1) (nchwOp 1 1) (iota [1, 8, 2, 2])
      (iota [8, 8, 1, 1]) [1, 8, 2, 2] (by decide) ⟨by decide, by decide, by decide, by decide⟩
      (by decide) (by decide) (by decide) (by decide)
      (by decide) (by decide) rfl⟩

/-- C9 fails at the test shape of the spec (`C_in = 4`, `C_out = 4`, a 5x5 input, a 3x3
kernel, stride one, no padding, so `H_out = W_out = 3`): both strategies return true,
Lowering+GEMM with the final index space `(1, 0, 3)` and Direct-Convolution with
`(0, 1, 3)`; the extent along the output columns is zero and covers none of the three
columns. -/
theorem nhwc_test_shape_not_covered :
    ((RunOnDeviceWithOrderNHWC (outputNHWC 3) (nhwcOp 3 true) (iota [1, 5, 5, 4])
        (iota [4, 3, 3, 4])).toOption.map
      (fun r => (r.1, (indexSpaces (issued (nhwcOp 3 true) r.2)).getLast?)) =
      some (true, some (KernelSource.kMECGemm, 1, 0, 3)) ∧
    ¬ (8 * 0 ≥ at_ [1, 3, 3, 4] 2)) ∧
    ((RunOnDeviceWithOrderNHWC (outputNHWC 3) (nhwcOp 3 false) (iota [1, 5, 5, 4])
        (iota [4, 3, 3, 4])).toOption.map
      (fun r => (r.1, (indexSpaces (issued (nhwcOp 3 false) r.2)).getLast?)) =
      some (true, some (KernelSource.kDirectConv, 0, 1, 3)) ∧
    ¬ (4 * 0 ≥ at_ [1, 3, 3, 4] 2)) := by
  refine ⟨⟨rfl, by decide⟩, rfl, by decide⟩

/-- C9 as amended: a validated channel-minor call returns true and its final dispatch
is over `(C_out/4, W_out/8, H_out)` for Lowering+GEMM and over `(W_out/4, C_out/4, H_out)`
for Direct-Convolution, the quotients rounded down and the third extent equal to `H_out`.
The tiles cover the output channels exactly when `C_out` is a multiple of 4, and the
output columns exactly when `W_out` is a multiple of 8 (Lowering+GEMM) or of 4
(Direct-Convolution). -/
theorem nhwc_dispatch_rounds_down (S : OutputSizer) (self : ConvOp) (X filter : Tensor)
    (Y : List Nat)
    (hX : X.dims.length = 4) (hnd : filter.ndim = 4) (hC : filter.dim 3 = X.dim 3)
    (hk0 : filter.dim 1 = at_ self.kernel_ 0) (hk1 : filter.dim 2 = at_ self.kernel_ 1)
    (hY : S X.dims (filter.dim 0) = .ok Y) :
    (∃ self', RunOnDeviceWithOrderNHWC S self X filter = .ok (true, self') ∧
      (indexSpaces (issued self self')).getLast? =
        some (if X.dim 3 ≥ 128 ∨ self.use_MEC = true
          then (KernelSource.kMECGemm, filter.dim 0 / 4, at_ Y 2 / 8, at_ Y 1)
          else (KernelSource.kDirectConv, at_ Y 2 / 4, filter.dim 0 / 4, at_ Y 1))) ∧
    (4 * (filter.dim 0 / 4) ≥ filter.dim 0 ↔ filter.dim 0 % 4 = 0) ∧
    (8 * (at_ Y 2 / 8) ≥ at_ Y 2 ↔ at_ Y 2 % 8 = 0) ∧
    (4 * (at_ Y 2 / 4) ≥ at_ Y 2 ↔ at_ Y 2 % 4 = 0) := by
  refine ⟨?_, tiles_cover_iff 4 _ (by decide), tiles_cover_iff 8 _ (by decide),
    tiles_cover_iff 4 _ (by decide)⟩
  rw [RunOnDeviceWithOrderNHWC_valid S self X filter Y hX hnd hC hk0 hk1 hY]
  by_cases hc : X.dim 3 ≥ 128 ∨ self.use_MEC = true
  · simp only [hc, if_true]
    refine ⟨(RunWithMECConv self filter (X.dim 0) (filter.dim 0) (X.dim 3)
      (at_ Y 1) (X.dim 1) (at_ Y 2) (X.dim 2)).2, rfl, ?_⟩
    rw [RunWithMECConv_indexSpaces]
    rfl
  · simp only [hc, if_false]
    refine ⟨(RunWithDirectConv self filter (X.dim 0) (filter.dim 0) (X.dim 3)
      (at_ Y 1) (X.dim 1) (at_ Y 2) (X.dim 2)).2, rfl, ?_⟩
    rw [RunWithDirectConv_indexSpaces]
    rfl

/-- Witness of C9 as amended: `C_in = 4`, `C_out = 8`, a 10x10 input, a 3x3 kernel, hence
an 8x8 output, through Lowering+GEMM. -/
theorem nhwc_dispatch_rounds_down_witness :
    ((iota [1, 10, 10, 4]).dims.length = 4 ∧ (iota [8, 3, 3, 4]).ndim = 4 ∧
      (iota [8, 3, 3, 4]).dim 3 = (iota [1, 10, 10, 4]).dim 3 ∧
      (iota [8, 3, 3, 4]).dim 1 = at_ (nhwcOp 3 true).kernel_ 0 ∧
      (iota [8, 3, 3, 4]).dim 2 = at_ (nhwcOp 3 true).kernel_ 1 ∧
      outputNHWC 3 (iota [1, 10, 10, 4]).dims ((iota [8, 3, 3, 4]).dim 0) = .ok [1, 8, 8, 8]) ∧
    ((∃ self', RunOnDeviceWithOrderNHWC (outputNHWC 3) (nhwcOp 3 true) (iota [1, 10, 10, 4])
          (iota [8, 3, 3, 4]) = .ok (true, self') ∧
      (indexSpaces (issued (nhwcOp 3 true) self')).getLast? =
        some (if (iota [1, 10, 10, 4]).dim 3 ≥ 128 ∨ (nhwcOp 3 true).use_MEC = true
          then (KernelSource.kMECGemm, (iota [8, 3, 3, 4]).dim 0 / 4, at_ [1, 8, 8, 8] 2 / 8,
            at_ [1, 8, 8, 8] 1)
          else (KernelSource.kDirectConv, at_ [1, 8, 8, 8] 2 / 4, (iota [8, 3, 3, 4]).dim 0 / 4,
            at_ [1, 8, 8, 8] 1))) ∧
    (4 * ((iota [8, 3, 3, 4]).dim 0 / 4) ≥ (iota [8, 3, 3, 4]).dim 0 ↔
      (iota [8, 3, 3, 4]).dim 0 % 4 = 0) ∧
    (8 * (at_ [1, 8, 8, 8] 2 / 8) ≥ at_ [1, 8, 8, 8] 2 ↔ at_ [1, 8, 8, 8] 2 % 8 = 0) ∧
    (4 * (at_ [1, 8, 8, 8] 2 / 4) ≥ at_ [1, 8, 8, 8] 2 ↔ at_ [1, 8, 8, 8] 2 % 4 = 0)) :=
  ⟨⟨by decide, by decide, by decide, by decide, by decide, rfl⟩,
    nhwc_dispatch_rounds_down (outputNHWC 3) (nhwcOp 3 true) (iota [1, 10, 10, 4])
      (iota [8, 3, 3, 4]) [1, 8, 8, 8] (by decide) (by decide) (by decide) (by decide)
      (by decide) rfl⟩

/-! ## Packing of the filter -/

theorem RunWithMECConv_pack (self : ConvOp) (filter : Tensor)
    (N C_out C_in H_out H_in W_out W_in : Nat) (h : self.filterStale filter = true) :
    (RunWithMECConv self filter N C_out C_in H_out H_in W_out W_in).2.filterBuffer_ =
      some (mecBuffer filter C_out C_in (at_ self.kernel_ 0) (at_ self.kernel_ 1)) ∧
    (RunWithMECConv self filter N C_out C_in H_out H_in W_out W_in).2.filterBufferImage_ =
      some (mecImage self.filter_image_format_ filter C_out C_in
        (at_ self.kernel_ 0) (at_ self.kernel_ 1)) ∧
    uploads (issued self (RunWithMECConv self filter N C_out C_in H_out H_in W_out W_in).2) =
      [transposedFilter filter (C_in * at_ self.kernel_ 1 * at_ self.kernel_ 0) C_out] ∧
    images (issued self (RunWithMECConv self filter N C_out C_in H_out H_in W_out W_in).2) =
      [(C_out / 4, C_in * at_ self.kernel_ 1 * at_ self.kernel_ 0)] := by
  unfold RunWithMECConv issued
  simp only [ConvOp.filterStale] at h ⊢
  split_ifs <;> simp_all [uploads, images, mecBuffer, mecImage]

theorem RunWithMECConv_keep (self : ConvOp) (filter : Tensor)
    (N C_out C_in H_out H_in W_out W_in : Nat) (h : self.filterStale filter = false) :
    (RunWithMECConv self filter N C_out C_in H_out H_in W_out W_in).2.filterBuffer_ =
      self.filterBuffer_ ∧
    (RunWithMECConv self filter N C_out C_in H_out H_in W_out W_in).2.filterBufferImage_ =
      self.filterBufferImage_ ∧
    uploads (issued self (RunWithMECConv self filter N C_out C_in H_out H_in W_out W_in).2) =
      [] ∧
    images (issued self (RunWithMECConv self filter N C_out C_in H_out H_in W_out W_in).2) =
      [] := by
  unfold RunWithMECConv issued
  simp only [ConvOp.filterStale] at h ⊢
  split_ifs <;> simp_all [uploads, images]

theorem RunWithDirectConv_pack (self : ConvOp) (filter : Tensor)
    (N C_out C_in H_out H_in W_out W_in : Nat) (h : self.filterStale filter = true) :
    (RunWithDirectConv self filter N C_out C_in H_out H_in W_out W_in).2.filterBuffer_ =
      some (TypedCopy filter (Tensor.alloc filter.dims)) ∧
    (RunWithDirectConv self filter N C_out C_in H_out H_in W_out W_in).2.filterBufferImage_ =
      some (directImage self.T filter C_out C_in (at_ self.kernel_ 0) (at_ self.kernel_ 1)) ∧
    uploads (issued self (RunWithDirectConv self filter N C_out C_in H_out H_in W_out W_in).2) =
      [filter] ∧
    images (issued self (RunWithDirectConv self filter N C_out C_in H_out H_in W_out W_in).2) =
      [(at_ self.kernel_ 0 * at_ self.kernel_ 1 * C_in / 4, C_out)] := by
  unfold RunWithDirectConv issued
  simp only [ConvOp.filterStale] at h ⊢
  split_ifs <;> simp_all [uploads, images, directImage, directFormat]

theorem RunWithDirectConv_keep (self : ConvOp) (filter : Tensor)
    (N C_out C_in H_out H_in W_out W_in : Nat) (h : self.filterStale filter = false) :
    (RunWithDirectConv self filter N C_out C_in H_out H_in W_out W_in).2.filterBuffer_ =
      self.filterBuffer_ ∧
    (RunWithDirectConv self filter N C_out C_in H_out H_in W_out W_in).2.filterBufferImage_ =
      self.filterBufferImage_ ∧
    uploads (issued self (RunWithDirectConv self filter N C_out C_in H_out H_in W_out W_in).2) =
      [] ∧
    images (issued self (RunWithDirectConv self filter N C_out C_in H_out H_in W_out W_in).2) =
      [] := by
  unfold RunWithDirectConv issued
  simp only [ConvOp.filterStale] at h ⊢
  split_ifs <;> simp_all [uploads, images]

theorem Run1x1GConv_pack (self : ConvOp) (filter : Tensor)
    (N C_out C_in H_out H_in W_out W_in G : Nat) (h : self.filterStale filter = true) :
    (Run1x1GConv self filter N C_out C_in H_out H_in W_out W_in G).2.filterBuffer_ =
      some (TypedCopy filter (Tensor.alloc filter.dims)) ∧
    uploads (issued self (Run1x1GConv self filter N C_out C_in H_out H_in W_out W_in G).2) =
      [filter] := by
  unfold Run1x1GConv issued
  simp only [ConvOp.filterStale] at h ⊢
  split_ifs <;> simp_all [uploads]

theorem Run1x1GConv_keep (self : ConvOp) (filter : Tensor)
    (N C_out C_in H_out H_in W_out W_in G : Nat) (h : self.filterStale filter = false) :
    (Run1x1GConv self filter N C_out C_in H_out H_in W_out W_in G).2.filterBuffer_ =
      self.filterBuffer_ ∧
    uploads (issued self (Run1x1GConv self filter N C_out C_in H_out H_in W_out W_in G).2) =
      [] := by
  unfold Run1x1GConv issued
  simp only [ConvOp.filterStale] at h ⊢
  split_ifs <;> simp_all [uploads]

theorem Tensor.size_of_ndim_four (t : Tensor) (h : t.ndim = 4) :
    t.size = t.dim 0 * t.dim 1 * t.dim 2 * t.dim 3 := by
  obtain ⟨dims, data⟩ := t
  simp only [Tensor.ndim] at h
  match dims, h with
  | [a, b, c, d], _ =>
    simp only [Tensor.size, Tensor.dim, List.prod_cons, List.prod_nil, List.getD_cons_zero,
      List.getD_cons_succ]
    ring

theorem packed_capacity (W H : Nat) :
    4 * (W / 4 * H) ≤ W * H ∧ (4 * (W / 4 * H) = W * H ↔ W % 4 = 0 ∨ H = 0) := by
  have h1 : 4 * (W / 4 * H) = (4 * (W / 4)) * H := by ring
  have h2 : 4 * (W / 4) ≤ W := Nat.mul_div_le W 4
  rw [h1]
  refine ⟨Nat.mul_le_mul_right H h2, ?_⟩
  rw [mul_eq_mul_right_iff]
  constructor
  · rintro (h | h)
    · left; omega
    · right; exact h
  · rintro (h | h)
    · left; omega
    · right; exact h

/-- C4 fails: no configuration is rejected by packing.  With `use_MEC` set, `C_in = 4`
and `C_out = 6` (not a multiple of 4) the call returns true after creating an image of
`6 / 4 = 1` by 4 texels, room for 16 of the 24 filter elements; without `use_MEC`, with
`C_in = 6` and `C_out = 4` (`K*K*C_in = 6`), Direct-Convolution does the same. -/
theorem packing_accepts_truncated_width :
    ((RunOnDeviceWithOrderNHWC (outputNHWC 1) (nhwcOp 1 true) (iota [1, 8, 8, 4])
        (iota [6, 1, 1, 4])).toOption.map
      (fun r => (r.1, dispatched (issued (nhwcOp 1 true) r.2),
        images (issued (nhwcOp 1 true) r.2), r.2.filterBufferImage_.map Image2D.capacity)) =
      some (true, [KernelSource.kMECLowering, KernelSource.kMECGemm], [(1, 4)], some 16) ∧
    (iota [6, 1, 1, 4]).size = 24 ∧ (iota [6, 1, 1, 4]).dim 0 % 4 ≠ 0) ∧
    ((RunOnDeviceWithOrderNHWC (outputNHWC 1) (nhwcOp 1 false) (iota [1, 8, 8, 6])
        (iota [4, 1, 1, 6])).toOption.map
      (fun r => (r.1, dispatched (issued (nhwcOp 1 false) r.2),
        images (issued (nhwcOp 1 false) r.2), r.2.filterBufferImage_.map Image2D.capacity)) =
      some (true, [KernelSource.kDirectConv], [(1, 4)], some 16) ∧
    (iota [4, 1, 1, 6]).size = 24 ∧ (1 * 1 * (iota [1, 8, 8, 6]).dim 3) % 4 ≠ 0) := by
  refine ⟨⟨rfl, by decide, by decide⟩, rfl, by decide, by decide⟩

/-- C4 as amended: a validated channel-minor call in which the filter is (re)packed does
not fail.  It returns true after creating one image, `floor(width / 4)` texels wide,
where the width axis is `C_out` for Lowering+GEMM (height `C_in*K*K`) and `K*K*C_in` for
Direct-Convolution (height `C_out`).  The image never has room for more than
`filter.size()` elements, and it has room for all of them exactly when the width axis is
a multiple of 4 (or the image is empty). -/
theorem nhwc_packing_truncates (S : OutputSizer) (self : ConvOp) (X filter : Tensor)
    (Y : List Nat)
    (hX : X.dims.length = 4) (hnd : filter.ndim = 4) (hC : filter.dim 3 = X.dim 3)
    (hk0 : filter.dim 1 = at_ self.kernel_ 0) (hk1 : filter.dim 2 = at_ self.kernel_ 1)
    (hY : S X.dims (filter.dim 0) = .ok Y)
    (hstale : self.filterStale filter = true) :
    ∃ self' img, RunOnDeviceWithOrderNHWC S self X filter = .ok (true, self') ∧
      self'.filterBufferImage_ = some img ∧
      images (issued self self') = [(img.width, img.height)] ∧
      (img.width, img.height) =
        (if X.dim 3 ≥ 128 ∨ self.use_MEC = true
          then (filter.dim 0 / 4, X.dim 3 * at_ self.kernel_ 1 * at_ self.kernel_ 0)
          else (at_ self.kernel_ 0 * at_ self.kernel_ 1 * X.dim 3 / 4, filter.dim 0)) ∧
      img.capacity ≤ filter.size ∧
      (img.capacity = filter.size ↔
        (if X.dim 3 ≥ 128 ∨ self.use_MEC = true
          then filter.dim 0 else at_ self.kernel_ 0 * at_ self.kernel_ 1 * X.dim 3) % 4 = 0 ∨
        img.height = 0) := by
  have hsize : filter.size = filter.dim 0 * at_ self.kernel_ 0 * at_ self.kernel_ 1 * X.dim 3 := by
    rw [Tensor.size_of_ndim_four filter hnd, hk0, hk1, hC]
  rw [RunOnDeviceWithOrderNHWC_valid S self X filter Y hX hnd hC hk0 hk1 hY]
  by_cases hc : X.dim 3 ≥ 128 ∨ self.use_MEC = true
  · simp only [hc, if_true]
    obtain ⟨_, himg, _, himgs⟩ := RunWithMECConv_pack self filter (X.dim 0) (filter.dim 0)
      (X.dim 3) (at_ Y 1) (X.dim 1) (at_ Y 2) (X.dim 2) hstale
    have hcap := packed_capacity (filter.dim 0) (X.dim 3 * at_ self.kernel_ 1 * at_ self.kernel_ 0)
    have hWH : filter.dim 0 * (X.dim 3 * at_ self.kernel_ 1 * at_ self.kernel_ 0) = filter.size := by
      rw [hsize]; ring
    rw [hWH] at hcap
    exact ⟨_, _, rfl, himg, himgs, rfl, hcap.1, hcap.2⟩
  · simp only [hc, if_false]
    obtain ⟨_, himg, _, himgs⟩ := RunWithDirectConv_pack self filter (X.dim 0) (filter.dim 0)
      (X.dim 3) (at_ Y 1) (X.dim 1) (at_ Y 2) (X.dim 2) hstale
    have hcap := packed_capacity (at_ self.kernel_ 0 * at_ self.kernel_ 1 * X.dim 3) (filter.dim 0)
    have hWH : at_ self.kernel_ 0 * at_ self.kernel_ 1 * X.dim 3 * filter.dim 0 = filter.size := by
      rw [hsize]; ring
    rw [hWH] at hcap
    exact ⟨_, _, rfl, himg, himgs, rfl, hcap.1, hcap.2⟩

/-- Witness of C4 as amended: the first call on a fresh instance, `C_in = 4`, `C_out = 6`,
through Lowering+GEMM. -/
theorem nhwc_packing_truncates_witness :
    ((iota [1, 8, 8, 4]).dims.length = 4 ∧ (iota [6, 1, 1, 4]).ndim = 4 ∧
      (iota [6, 1, 1, 4]).dim 3 = (iota [1, 8, 8, 4]).dim 3 ∧
      (iota [6, 1, 1, 4]).dim 1 = at_ (nhwcOp 1 true).kernel_ 0 ∧
      (iota [6, 1, 1, 4]).dim 2 = at_ (nhwcOp 1 true).kernel_ 1 ∧
      outputNHWC 1 (iota [1, 8, 8, 4]).dims ((iota [6, 1, 1, 4]).dim 0) = .ok [1, 8, 8, 6] ∧
      (nhwcOp 1 true).filterStale (iota [6, 1, 1, 4]) = true) ∧
    (∃ self' img, RunOnDeviceWithOrderNHWC (outputNHWC 1) (nhwcOp 1 true) (iota [1, 8, 8, 4])
          (iota [6, 1, 1, 4]) = .ok (true, self') ∧
      self'.filterBufferImage_ = some img ∧
      images (issued (nhwcOp 1 true) self') = [(img.width, img.height)] ∧
      (img.width, img.height) =
        (if (iota [1, 8, 8, 4]).dim 3 ≥ 128 ∨ (nhwcOp 1 true).use_MEC = true
          then ((iota [6, 1, 1, 4]).dim 0 / 4,
            (iota [1, 8, 8, 4]).dim 3 * at_ (nhwcOp 1 true).kernel_ 1 *
              at_ (nhwcOp 1 true).kernel_ 0)
          else (at_ (nhwcOp 1 true).kernel_ 0 * at_ (nhwcOp 1 true).kernel_ 1 *
            (iota [1, 8, 8, 4]).dim 3 / 4, (iota [6, 1, 1, 4]).dim 0)) ∧
      img.capacity ≤ (iota [6, 1, 1, 4]).size ∧
      (img.capacity = (iota [6, 1, 1, 4]).size ↔
        (if (iota [1, 8, 8, 4]).dim 3 ≥ 128 ∨ (nhwcOp 1 true).use_MEC = true
          then (iota [6, 1, 1, 4]).dim 0
          else at_ (nhwcOp 1 true).kernel_ 0 * at_ (nhwcOp 1 true).kernel_ 1 *
            (iota [1, 8, 8, 4]).dim 3) % 4 = 0 ∨
        img.height = 0)) :=
  ⟨⟨by decide, by decide, by decide, by decide, by decide, rfl, rfl⟩,
    nhwc_packing_truncates (outputNHWC 1) (nhwcOp 1 true) (iota [1, 8, 8, 4])
      (iota [6, 1, 1, 4]) [1, 8, 8, 6] (by decide) (by decide) (by decide) (by decide)
      (by decide) rfl rfl⟩

/-! ## The transposition of the filter -/

theorem rowMajor_range (H W : Nat) :
    ((List.range H).flatMap fun i => (List.range W).map fun j => i * W + j) =
      List.range (H * W) := by
  induction H with
  | zero => simp
  | succ n ih =>
    rw [List.range_succ, List.flatMap_append, ih, Nat.succ_mul, List.range_add]
    simp

theorem transposeWrites_fst (H W : Nat) :
    (transposeWrites H W).map Prod.fst = List.range (H * W) := by
  rw [← rowMajor_range]
  simp only [transposeWrites, List.map_flatMap, List.map_map]
  rfl

theorem transposeWrites_length (H W : Nat) : (transposeWrites H W).length = H * W := by
  have h := congrArg List.length (transposeWrites_fst H W)
  simpa using h

theorem mem_transposeWrites (H W i j : Nat) (hi : i < H) (hj : j < W) :
    (i * W + j, j * H + i) ∈ transposeWrites H W := by
  simp only [transposeWrites, List.mem_flatMap, List.mem_map, List.mem_range]
  exact ⟨i, hi, j, hj, rfl⟩

theorem set_length_append {α : Type} (pre : List α) (x v : α) (post : List α) :
    (pre ++ x :: post).set pre.length v = pre ++ v :: post := by
  induction pre with
  | nil => rfl
  | cons a l ih => simp [ih]

theorem foldl_set_in_order {α : Type} (val : Nat → α) (ws : List (Nat × Nat)) :
    ∀ (pre post : List α), ws.map Prod.fst = List.range' pre.length ws.length →
      ws.length ≤ post.length →
      ws.foldl (fun d w => d.set w.1 (val w.2)) (pre ++ post) =
        pre ++ ws.map (fun w => val w.2) ++ post.drop ws.length := by
  induction ws with
  | nil => intro pre post _ _; simp
  | cons w rest ih =>
    intro pre post hfst hlen
    match post, hlen with
    | x :: post', hlen =>
      simp only [List.map_cons, List.length_cons, List.range'_succ, List.cons.injEq] at hfst
      obtain ⟨hw, hrest⟩ := hfst
      simp only [List.foldl_cons, hw, set_length_append]
      have h := ih (pre ++ [val w.2]) post' (by simpa using hrest)
        (by simpa using hlen)
      simp only [List.append_assoc, List.singleton_append] at h
      rw [h]
      simp

theorem transposedFilter_data (filter : Tensor) (H W : Nat) (hsize : filter.size = H * W) :
    (transposedFilter filter H W).data =
      (transposeWrites H W).map fun w => filter.data.getD w.2 0 := by
  have h := foldl_set_in_order (fun q => filter.data.getD q 0) (transposeWrites H W) []
    (List.replicate filter.dims.prod 0)
    (by rw [transposeWrites_fst, transposeWrites_length, List.range_eq_range']; rfl)
    (by rw [transposeWrites_length, List.length_replicate]; exact le_of_eq hsize.symm)
  simp only [List.nil_append] at h
  simp only [transposedFilter, Tensor.alloc]
  rw [h, transposeWrites_length, List.drop_eq_nil_of_le]
  · simp
  · rw [List.length_replicate]; exact le_of_eq hsize

theorem getElem?_of_mem_of_fst_range (ws : List (Nat × Nat)) (n p q : Nat)
    (h : ws.map Prod.fst = List.range n) (hm : (p, q) ∈ ws) : ws[p]? = some (p, q) := by
  obtain ⟨k, hk, hget⟩ := List.getElem_of_mem hm
  have h1 : (ws.map Prod.fst)[k]? = some p := by
    rw [List.getElem?_map, List.getElem?_eq_getElem hk, hget]; rfl
  rw [h] at h1
  have hkn : k < n := by
    have := congrArg List.length h
    simp at this
    omega
  rw [List.getElem?_range hkn] at h1
  have hkp : k = p := by simpa using h1
  subst hkp
  rw [List.getElem?_eq_getElem hk, hget]

theorem colMajor_lt (H W i j : Nat) (hi : i < H) (hj : j < W) : j * H + i < H * W := by
  have h1 : (j + 1) * H ≤ W * H := Nat.mul_le_mul_right H hj
  have h2 : (j + 1) * H = j * H + H := by ring
  have h3 : W * H = H * W := Nat.mul_comm W H
  omega

theorem transposeWrites_snd_mem (H W q : Nat) :
    q ∈ (transposeWrites H W).map Prod.snd ↔ q ∈ List.range (H * W) := by
  simp only [transposeWrites, List.mem_map, List.mem_flatMap, List.mem_range, Prod.exists,
    exists_and_right, exists_eq_right]
  constructor
  · rintro ⟨p, i, hi, j, hj, heq⟩
    simp only [Prod.mk.injEq] at heq
    rw [← heq.2]
    exact colMajor_lt H W i j hi hj
  · intro hq
    have hH : 0 < H := by
      rcases Nat.eq_zero_or_pos H with h | h
      · subst h; simp at hq
      · exact h
    refine ⟨q % H * W + q / H, q % H, Nat.mod_lt q hH, q / H, ?_, ?_⟩
    · exact Nat.div_lt_of_lt_mul hq
    · simp only [Prod.mk.injEq, true_and]
      exact Nat.div_add_mod' q H

theorem transposeWrites_snd_nodup (H W : Nat) :
    ((transposeWrites H W).map Prod.snd).Nodup := by
  have hmap : (transposeWrites H W).map Prod.snd =
      (List.range H).flatMap fun i => (List.range W).map fun j => j * H + i := by
    simp only [transposeWrites, List.map_flatMap, List.map_map]
    rfl
  rw [hmap, List.nodup_flatMap]
  constructor
  · intro i hi
    have hH : i < H := List.mem_range.1 hi
    refine (List.nodup_range W).map ?_
    intro a b hab
    simp only at hab
    have : a * H = b * H := by omega
    exact Nat.eq_of_mul_eq_mul_right (by omega) this
  · refine (List.pairwise_lt_range H).imp_of_mem ?_
    intro a b ha hb hab
    have haH : a < H := List.mem_range.1 ha
    have hbH : b < H := List.mem_range.1 hb
    intro x hxa hxb
    simp only [List.mem_map, List.mem_range] at hxa hxb
    obtain ⟨j, -, hj⟩ := hxa
    obtain ⟨k, -, hk⟩ := hxb
    have h1 : (j * H + a) % H = a := by
      rw [Nat.add_comm, Nat.add_mul_mod_self_right, Nat.mod_eq_of_lt haH]
    have h2 : (k * H + b) % H = b := by
      rw [Nat.add_comm, Nat.add_mul_mod_self_right, Nat.mod_eq_of_lt hbH]
    rw [hj] at h1
    rw [hk] at h2
    omega

theorem transposeWrites_snd_perm (H W : Nat) :
    ((transposeWrites H W).map Prod.snd).Perm (List.range (H * W)) :=
  (List.perm_ext_iff_of_nodup (transposeWrites_snd_nodup H W) (List.nodup_range _)).2
    (fun q => transposeWrites_snd_mem H W q)

theorem map_getD_range (l : List Elem) : (List.range l.length).map (fun q => l.getD q 0) = l := by
  apply List.ext_getElem
  · simp
  · intro i h1 h2
    simp [List.getD_eq_getElem?_getD, List.getElem?_eq_getElem h2]

theorem transposedFilter_perm (filter : Tensor) (H W : Nat) (hsize : filter.size = H * W)
    (hdata : filter.data.length = filter.size) :
    (transposedFilter filter H W).data.Perm filter.data := by
  rw [transposedFilter_data filter H W hsize]
  have h1 : ((transposeWrites H W).map fun w => filter.data.getD w.2 0) =
      ((transposeWrites H W).map Prod.snd).map fun q => filter.data.getD q 0 := by
    simp [List.map_map]
  rw [h1]
  have h2 := (transposeWrites_snd_perm H W).map fun q => filter.data.getD q 0
  rw [← hsize, ← hdata, map_getD_range] at h2
  exact h2

theorem transposedFilter_getElem? (filter : Tensor) (H W i j : Nat)
    (hsize : filter.size = H * W) (hdata : filter.data.length = filter.size)
    (hi : i < H) (hj : j < W) :
    (transposedFilter filter H W).data[i * W + j]? = filter.data[j * H + i]? := by
  rw [transposedFilter_data filter H W hsize, List.getElem?_map,
    getElem?_of_mem_of_fst_range _ _ _ _ (transposeWrites_fst H W)
      (mem_transposeWrites H W i j hi hj)]
  have hlt : j * H + i < filter.data.length := by
    rw [hdata, hsize]; exact colMajor_lt H W i j hi hj
  simp [List.getD_eq_getElem?_getD, List.getElem?_eq_getElem hlt]

/-- C5: when `RunWithMECConv` (re)packs a filter of `C_out*C_in*K*K` elements, the tensor
it uploads is the host-side transposed filter, and that tensor is the transpose of the
filter read as a row-major `[C_out, C_in*K*K]` matrix:
`transposed[i*C_out + j] = filter[j*(C_in*K*K) + i]` for all `i < C_in*K*K` and
`j < C_out`.  The loop writes the positions `0, 1, .., filter.size()-1`, each exactly
once, and the transposed elements are a permutation of the elements of the filter. -/
theorem mec_uploads_transposed_filter (self : ConvOp) (filter : Tensor)
    (N C_out C_in H_out H_in W_out W_in : Nat)
    (hstale : self.filterStale filter = true)
    (hsize : filter.size = C_out * C_in * at_ self.kernel_ 0 * at_ self.kernel_ 1)
    (hdata : filter.data.length = filter.size) :
    uploads (issued self (RunWithMECConv self filter N C_out C_in H_out H_in W_out W_in).2) =
      [transposedFilter filter (C_in * at_ self.kernel_ 1 * at_ self.kernel_ 0) C_out] ∧
    (RunWithMECConv self filter N C_out C_in H_out H_in W_out W_in).2.filterBuffer_ =
      some { dims := filter.dims,
             data := (transposedFilter filter
               (C_in * at_ self.kernel_ 1 * at_ self.kernel_ 0) C_out).data } ∧
    (∀ i j, i < C_in * at_ self.kernel_ 1 * at_ self.kernel_ 0 → j < C_out →
      (transposedFilter filter (C_in * at_ self.kernel_ 1 * at_ self.kernel_ 0) C_out).data[
          i * C_out + j]? =
        filter.data[j * (C_in * at_ self.kernel_ 1 * at_ self.kernel_ 0) + i]?) ∧
    (transposeWrites (C_in * at_ self.kernel_ 1 * at_ self.kernel_ 0) C_out).map Prod.fst =
      List.range filter.size ∧
    (transposedFilter filter (C_in * at_ self.kernel_ 1 * at_ self.kernel_ 0) C_out).data.length =
      filter.size ∧
    (transposedFilter filter (C_in * at_ self.kernel_ 1 * at_ self.kernel_ 0) C_out).data.Perm
      filter.data := by
  have hHW : filter.size = C_in * at_ self.kernel_ 1 * at_ self.kernel_ 0 * C_out := by
    rw [hsize]; ring
  obtain ⟨hbuf, _, hup, _⟩ := RunWithMECConv_pack self filter N C_out C_in H_out H_in W_out W_in
    hstale
  have hperm := transposedFilter_perm filter _ _ hHW hdata
  refine ⟨hup, ?_, ?_, ?_, ?_, hperm⟩
  · rw [hbuf]; rfl
  · intro i j hi hj
    exact transposedFilter_getElem? filter _ _ i j hHW hdata hi hj
  · rw [transposeWrites_fst, hHW]
  · rw [hperm.length_eq, hdata]

/-- Witness of C5: the first call on a fresh instance with `C_out = 2`, `C_in = 3` and a
1x1 kernel; the filter `0 1 2 / 3 4 5` is uploaded as `0 3 / 1 4 / 2 5`. -/
theorem mec_uploads_transposed_filter_witness :
    ((nhwcOp 1 true).filterStale (iota [2, 1, 1, 3]) = true ∧
      (iota [2, 1, 1, 3]).size =
        2 * 3 * at_ (nhwcOp 1 true).kernel_ 0 * at_ (nhwcOp 1 true).kernel_ 1 ∧
      (iota [2, 1, 1, 3]).data.length = (iota [2, 1, 1, 3]).size ∧
      (transposedFilter (iota [2, 1, 1, 3]) 3 2).data = [0, 3, 1, 4, 2, 5]) ∧
    (uploads (issued (nhwcOp 1 true)
        (RunWithMECConv (nhwcOp 1 true) (iota [2, 1, 1, 3]) 1 2 3 4 4 8 8).2) =
      [transposedFilter (iota [2, 1, 1, 3])
        (3 * at_ (nhwcOp 1 true).kernel_ 1 * at_ (nhwcOp 1 true).kernel_ 0) 2] ∧
    (RunWithMECConv (nhwcOp 1 true) (iota [2, 1, 1, 3]) 1 2 3 4 4 8 8).2.filterBuffer_ =
      some { dims := (iota [2, 1, 1, 3]).dims,
             data := (transposedFilter (iota [2, 1, 1, 3])
               (3 * at_ (nhwcOp 1 true).kernel_ 1 * at_ (nhwcOp 1 true).kernel_ 0) 2).data } ∧
    (∀ i j, i < 3 * at_ (nhwcOp 1 true).kernel_ 1 * at_ (nhwcOp 1 true).kernel_ 0 → j < 2 →
      (transposedFilter (iota [2, 1, 1, 3])
          (3 * at_ (nhwcOp 1 true).kernel_ 1 * at_ (nhwcOp 1 true).kernel_ 0) 2).data[
          i * 2 + j]? =
        (iota [2, 1, 1, 3]).data[
          j * (3 * at_ (nhwcOp 1 true).kernel_ 1 * at_ (nhwcOp 1 true).kernel_ 0) + i]?) ∧
    (transposeWrites (3 * at_ (nhwcOp 1 true).kernel_ 1 * at_ (nhwcOp 1 true).kernel_ 0) 2).map
        Prod.fst = List.range (iota [2, 1, 1, 3]).size ∧
    (transposedFilter (iota [2, 1, 1, 3])
        (3 * at_ (nhwcOp 1 true).kernel_ 1 * at_ (nhwcOp 1 true).kernel_ 0) 2).data.length =
      (iota [2, 1, 1, 3]).size ∧
    (transposedFilter (iota [2, 1, 1, 3])
        (3 * at_ (nhwcOp 1 true).kernel_ 1 * at_ (nhwcOp 1 true).kernel_ 0) 2).data.Perm
      (iota [2, 1, 1, 3]).data) :=
  ⟨⟨rfl, by decide, by decide, by decide⟩,
    mec_uploads_transposed_filter (nhwcOp 1 true) (iota [2, 1, 1, 3]) 1 2 3 4 4 8 8 rfl
      (by decide) (by decide)⟩

/-! ## Caching of the filter and of the programs -/

theorem RunOnDeviceWithOrderNHWC_ok (S : OutputSizer) (self : ConvOp) (X filter : Tensor)
    (r : Bool × ConvOp) (h : RunOnDeviceWithOrderNHWC S self X filter = .ok r) :
    ∃ Y, X.dims.length = 4 ∧ filter.ndim = 4 ∧ filter.dim 3 = X.dim 3 ∧
      filter.dim 1 = at_ self.kernel_ 0 ∧ filter.dim 2 = at_ self.kernel_ 1 ∧
      S X.dims (filter.dim 0) = .ok Y ∧
      r = (if X.dim 3 ≥ 128 ∨ self.use_MEC = true
        then RunWithMECConv self filter (X.dim 0) (filter.dim 0) (X.dim 3)
              (at_ Y 1) (X.dim 1) (at_ Y 2) (X.dim 2)
        else RunWithDirectConv self filter (X.dim 0) (filter.dim 0) (X.dim 3)
              (at_ Y 1) (X.dim 1) (at_ Y 2) (X.dim 2)) := by
  by_cases hX : X.dims.length = 4
  swap
  · simp [RunOnDeviceWithOrderNHWC, CAFFE_ENFORCE_EQ, hX, bind, Except.bind] at h
  by_cases hnd : filter.ndim = 4
  swap
  · simp [RunOnDeviceWithOrderNHWC, CAFFE_ENFORCE_EQ, hX, hnd, bind, Except.bind] at h
  by_cases hC : filter.dim 3 = X.dim 3
  swap
  · simp [RunOnDeviceWithOrderNHWC, CAFFE_ENFORCE_EQ, hX, hnd, hC, bind, Except.bind] at h
  by_cases hk0 : filter.dim 1 = at_ self.kernel_ 0
  swap
  · simp [RunOnDeviceWithOrderNHWC, CAFFE_ENFORCE_EQ, hX, hnd, hC, hk0, bind, Except.bind] at h
  by_cases hk1 : filter.dim 2 = at_ self.kernel_ 1
  swap
  · simp [RunOnDeviceWithOrderNHWC, CAFFE_ENFORCE_EQ, hX, hnd, hC, hk0, hk1, bind,
      Except.bind] at h
  cases hY : S X.dims (filter.dim 0) with
  | error e =>
    simp [RunOnDeviceWithOrderNHWC, CAFFE_ENFORCE_EQ, hX, hnd, hC, hk0, hk1, hY, bind,
      Except.bind, Except.mapError] at h
  | ok Y =>
    rw [RunOnDeviceWithOrderNHWC_valid S self X filter Y hX hnd hC hk0 hk1 hY] at h
    exact ⟨Y, hX, hnd, hC, hk0, hk1, rfl, (Except.ok.inj h).symm⟩

theorem RunOnDeviceWithOrderNCHW_ok (S : OutputSizer) (self : ConvOp) (X filter : Tensor)
    (r : Bool × ConvOp) (hsq : at_ self.kernel_ 0 = at_ self.kernel_ 1)
    (h : RunOnDeviceWithOrderNCHW S self X filter = .ok r) :
    ∃ Y, X.dims.length = 4 ∧ filter.ndim = 4 ∧ filter.dim 1 * self.group_ = X.dim 1 ∧
      filter.dim 2 = at_ self.kernel_ 0 ∧ filter.dim 3 = at_ self.kernel_ 1 ∧
      S X.dims (filter.dim 0) = .ok Y ∧
      r = Run1x1GConv self filter (X.dim 0) (filter.dim 0) (X.dim 1)
        (at_ Y 2) (X.dim 2) (at_ Y 3) (X.dim 3) self.group_ := by
  by_cases hX : X.dims.length = 4
  swap
  · simp [RunOnDeviceWithOrderNCHW, CAFFE_ENFORCE_EQ, hX, bind, Except.bind] at h
  by_cases hnd : filter.ndim = 4
  swap
  · simp [RunOnDeviceWithOrderNCHW, CAFFE_ENFORCE_EQ, hX, hnd, bind, Except.bind] at h
  by_cases hC : filter.dim 1 * self.group_ = X.dim 1
  swap
  · simp [RunOnDeviceWithOrderNCHW, CAFFE_ENFORCE_EQ, hX, hnd, hC, bind, Except.bind] at h
  by_cases hk0 : filter.dim 2 = at_ self.kernel_ 0
  swap
  · simp [RunOnDeviceWithOrderNCHW, CAFFE_ENFORCE_EQ, hX, hnd, hC, hk0, bind, Except.bind] at h
  by_cases hk1 : filter.dim 3 = at_ self.kernel_ 1
  swap
  · simp [RunOnDeviceWithOrderNCHW, CAFFE_ENFORCE_EQ, hX, hnd, hC, hk0, hk1, bind,
      Except.bind] at h
  cases hY : S X.dims (filter.dim 0) with
  | error e =>
    simp [RunOnDeviceWithOrderNCHW, CAFFE_ENFORCE_EQ, hX, hnd, hC, hk0, hk1, hY, bind,
      Except.bind, Except.mapError] at h
  | ok Y =>
    rw [RunOnDeviceWithOrderNCHW_valid S self X filter Y hX hnd hC hk0 hk1 hsq hY] at h
    exact ⟨Y, hX, hnd, hC, hk0, hk1, rfl, (Except.ok.inj h).symm⟩

theorem RunOnDeviceWithOrderNHWC_error (S : OutputSizer) (self : ConvOp) (X filter : Tensor)
    (e : String) (s : ConvOp) (h : RunOnDeviceWithOrderNHWC S self X filter = .error (e, s)) :
    s = self := by
  by_cases hX : X.dims.length = 4
  swap
  · simp [RunOnDeviceWithOrderNHWC, CAFFE_ENFORCE_EQ, hX, bind, Except.bind] at h
    exact h.2.symm
  by_cases hnd : filter.ndim = 4
  swap
  · simp [RunOnDeviceWithOrderNHWC, CAFFE_ENFORCE_EQ, hX, hnd, bind, Except.bind] at h
    exact h.2.symm
  by_cases hC : filter.dim 3 = X.dim 3
  swap
  · simp [RunOnDeviceWithOrderNHWC, CAFFE_ENFORCE_EQ, hX, hnd, hC, bind, Except.bind] at h
    exact h.2.symm
  by_cases hk0 : filter.dim 1 = at_ self.kernel_ 0
  swap
  · simp [RunOnDeviceWithOrderNHWC, CAFFE_ENFORCE_EQ, hX, hnd, hC, hk0, bind, Except.bind] at h
    exact h.2.symm
  by_cases hk1 : filter.dim 2 = at_ self.kernel_ 1
  swap
  · simp [RunOnDeviceWithOrderNHWC, CAFFE_ENFORCE_EQ, hX, hnd, hC, hk0, hk1, bind,
      Except.bind] at h
    exact h.2.symm
  cases hY : S X.dims (filter.dim 0) with
  | error e' =>
    simp [RunOnDeviceWithOrderNHWC, CAFFE_ENFORCE_EQ, hX, hnd, hC, hk0, hk1, hY, bind,
      Except.bind, Except.mapError] at h
    exact h.2.symm
  | ok Y =>
    rw [RunOnDeviceWithOrderNHWC_valid S self X filter Y hX hnd hC hk0 hk1 hY] at h
    cases h

theorem RunOnDeviceWithOrderNCHW_error (S : OutputSizer) (self : ConvOp) (X filter : Tensor)
    (e : String) (s : ConvOp) (h : RunOnDeviceWithOrderNCHW S self X filter = .error (e, s)) :
    s = self := by
  by_cases hX : X.dims.length = 4
  swap
  · simp [RunOnDeviceWithOrderNCHW, CAFFE_ENFORCE_EQ, hX, bind, Except.bind] at h
    exact h.2.symm
  by_cases hnd : filter.ndim = 4
  swap
  · simp [RunOnDeviceWithOrderNCHW, CAFFE_ENFORCE_EQ, hX, hnd, bind, Except.bind] at h
    exact h.2.symm
  by_cases hC : filter.dim 1 * self.group_ = X.dim 1
  swap
  · simp [RunOnDeviceWithOrderNCHW, CAFFE_ENFORCE_EQ, hX, hnd, hC, bind, Except.bind] at h
    exact h.2.symm
  by_cases hk0 : filter.dim 2 = at_ self.kernel_ 0
  swap
  · simp [RunOnDeviceWithOrderNCHW, CAFFE_ENFORCE_EQ, hX, hnd, hC, hk0, bind, Except.bind] at h
    exact h.2.symm
  by_cases hk1 : filter.dim 3 = at_ self.kernel_ 1
  swap
  · simp [RunOnDeviceWithOrderNCHW, CAFFE_ENFORCE_EQ, hX, hnd, hC, hk0, hk1, bind,
      Except.bind] at h
    exact h.2.symm
  cases hY : S X.dims (filter.dim 0) with
  | error e' =>
    simp [RunOnDeviceWithOrderNCHW, CAFFE_ENFORCE_EQ, hX, hnd, hC, hk0, hk1, hY, bind,
      Except.bind, Except.mapError] at h
    exact h.2.symm
  | ok Y =>
    unfold RunOnDeviceWithOrderNCHW at h
    simp only [CAFFE_ENFORCE_EQ, hX, hnd, hC, hk0, hk1, hY, bind, Except.bind, pure,
      Except.pure, Except.mapError, if_true] at h
    split_ifs at h

theorem RunOnDeviceWithOrder_error (S : OutputSizer) (self : ConvOp) (order : StorageOrder)
    (X filter : Tensor) (e : String) (s : ConvOp)
    (h : RunOnDeviceWithOrder S self order X filter = .error (e, s)) : s = self := by
  cases order with
  | NCHW => exact RunOnDeviceWithOrderNCHW_error S self X filter e s h
  | NHWC => exact RunOnDeviceWithOrderNHWC_error S self X filter e s h

theorem RunOnDeviceWithOrderNCHW_returns_true (S : OutputSizer) (self : ConvOp)
    (X filter : Tensor) (r : Bool × ConvOp) (hsq : at_ self.kernel_ 0 = at_ self.kernel_ 1)
    (h : RunOnDeviceWithOrderNCHW S self X filter = .ok r) : r.1 = true := by
  obtain ⟨Y, -, -, -, -, -, -, hr⟩ := RunOnDeviceWithOrderNCHW_ok S self X filter r hsq h
  rw [hr]
  rfl

theorem Run1x1GConv_config (self : ConvOp) (filter : Tensor)
    (N C_out C_in H_out H_in W_out W_in G : Nat) :
    sameConfig self (Run1x1GConv self filter N C_out C_in H_out H_in W_out W_in G).2 ∧
    (Run1x1GConv self filter N C_out C_in H_out H_in W_out W_in G).2.ctx = self.ctx ++
      issued self (Run1x1GConv self filter N C_out C_in H_out H_in W_out W_in G).2 := by
  unfold Run1x1GConv issued sameConfig
  simp only []
  split_ifs <;> simp

theorem RunWithMECConv_config (self : ConvOp) (filter : Tensor)
    (N C_out C_in H_out H_in W_out W_in : Nat) :
    sameConfig self (RunWithMECConv self filter N C_out C_in H_out H_in W_out W_in).2 ∧
    (RunWithMECConv self filter N C_out C_in H_out H_in W_out W_in).2.ctx = self.ctx ++
      issued self (RunWithMECConv self filter N C_out C_in H_out H_in W_out W_in).2 := by
  unfold RunWithMECConv issued sameConfig
  simp only []
  split_ifs <;> simp

theorem RunWithDirectConv_config (self : ConvOp) (filter : Tensor)
    (N C_out C_in H_out H_in W_out W_in : Nat) :
    sameConfig self (RunWithDirectConv self filter N C_out C_in H_out H_in W_out W_in).2 ∧
    (RunWithDirectConv self filter N C_out C_in H_out H_in W_out W_in).2.ctx = self.ctx ++
      issued self (RunWithDirectConv self filter N C_out C_in H_out H_in W_out W_in).2 := by
  unfold RunWithDirectConv issued sameConfig
  simp only []
  split_ifs <;> simp

theorem Run1x1GConv_programs (self : ConvOp) (filter : Tensor)
    (N C_out C_in H_out H_in W_out W_in G : Nat) :
    compiled (issued self (Run1x1GConv self filter N C_out C_in H_out H_in W_out W_in G).2) =
      (if self.gemm1x1Kernel_.isSome then [] else [KernelSource.k1x1Gemm]) ∧
    (Run1x1GConv self filter N C_out C_in H_out H_in W_out W_in G).2.gemm1x1Kernel_.isSome ∧
    (self.gemm1x1Kernel_.isSome →
      (Run1x1GConv self filter N C_out C_in H_out H_in W_out W_in G).2.gemm1x1Kernel_ =
        self.gemm1x1Kernel_) ∧
    (Run1x1GConv self filter N C_out C_in H_out H_in W_out W_in G).2.loweringKernel_ =
      self.loweringKernel_ ∧
    (Run1x1GConv self filter N C_out C_in H_out H_in W_out W_in G).2.gemmKernel_ =
      self.gemmKernel_ ∧
    (Run1x1GConv self filter N C_out C_in H_out H_in W_out W_in G).2.directKernel_ =
      self.directKernel_ := by
  unfold Run1x1GConv issued
  simp only []
  split_ifs <;> simp_all [compiled]

theorem RunWithMECConv_programs (self : ConvOp) (filter : Tensor)
    (N C_out C_in H_out H_in W_out W_in : Nat) :
    compiled (issued self (RunWithMECConv self filter N C_out C_in H_out H_in W_out W_in).2) =
      (if self.loweringKernel_.isSome ∧ self.gemmKernel_.isSome then []
        else [KernelSource.kMECLowering, KernelSource.kMECGemm]) ∧
    (RunWithMECConv self filter N C_out C_in H_out H_in W_out W_in).2.loweringKernel_.isSome ∧
    (RunWithMECConv self filter N C_out C_in H_out H_in W_out W_in).2.gemmKernel_.isSome ∧
    (self.loweringKernel_.isSome ∧ self.gemmKernel_.isSome →
      (RunWithMECConv self filter N C_out C_in H_out H_in W_out W_in).2.loweringKernel_ =
        self.loweringKernel_ ∧
      (RunWithMECConv self filter N C_out C_in H_out H_in W_out W_in).2.gemmKernel_ =
        self.gemmKernel_) ∧
    (RunWithMECConv self filter N C_out C_in H_out H_in W_out W_in).2.gemm1x1Kernel_ =
      self.gemm1x1Kernel_ ∧
    (RunWithMECConv self filter N C_out C_in H_out H_in W_out W_in).2.directKernel_ =
      self.directKernel_ := by
  unfold RunWithMECConv issued
  simp only []
  cases hl : self.loweringKernel_ <;> cases hg : self.gemmKernel_ <;>
    simp only [Option.isNone_none, Option.isNone_some, Option.isSome_none, Option.isSome_some,
      Bool.or_self, Bool.or_true, Bool.true_or, Bool.or_false, if_true, if_false, and_self,
      and_true, true_and, and_false, false_and, Bool.false_eq_true] <;>
    split_ifs <;> simp_all [compiled]

theorem RunWithDirectConv_programs (self : ConvOp) (filter : Tensor)
    (N C_out C_in H_out H_in W_out W_in : Nat) :
    compiled (issued self (RunWithDirectConv self filter N C_out C_in H_out H_in W_out W_in).2) =
      (if self.directKernel_.isSome then [] else [KernelSource.kDirectConv]) ∧
    (RunWithDirectConv self filter N C_out C_in H_out H_in W_out W_in).2.directKernel_.isSome ∧
    (self.directKernel_.isSome →
      (RunWithDirectConv self filter N C_out C_in H_out H_in W_out W_in).2.directKernel_ =
        self.directKernel_) ∧
    (RunWithDirectConv self filter N C_out C_in H_out H_in W_out W_in).2.loweringKernel_ =
      self.loweringKernel_ ∧
    (RunWithDirectConv self filter N C_out C_in H_out H_in W_out W_in).2.gemmKernel_ =
      self.gemmKernel_ ∧
    (RunWithDirectConv self filter N C_out C_in H_out H_in W_out W_in).2.gemm1x1Kernel_ =
      self.gemm1x1Kernel_ := by
  unfold RunWithDirectConv issued
  simp only []
  split_ifs <;> simp_all [compiled]

theorem filterStale_eq_false_iff (self : ConvOp) (filter : Tensor) :
    self.filterStale filter = false ↔ self.filterBuffer_.map Tensor.size = some filter.size := by
  unfold ConvOp.filterStale
  cases self.filterBuffer_ <;> simp

theorem TypedCopy_alloc_size (src filter : Tensor) :
    (TypedCopy src (Tensor.alloc filter.dims)).size = filter.size := rfl

theorem Run1x1GConv_filter_step (self : ConvOp) (filter : Tensor)
    (N C_out C_in H_out H_in W_out W_in G : Nat) :
    (uploads (issued self
        (Run1x1GConv self filter N C_out C_in H_out H_in W_out W_in G).2)).length =
      (if self.filterBuffer_.map Tensor.size = some filter.size then 0 else 1) ∧
    (Run1x1GConv self filter N C_out C_in H_out H_in W_out W_in G).2.filterBuffer_.map
      Tensor.size = some filter.size := by
  cases hst : self.filterStale filter with
  | true =>
    have hne : ¬ self.filterBuffer_.map Tensor.size = some filter.size := by
      rw [← filterStale_eq_false_iff, hst]; simp
    obtain ⟨h1, h2⟩ := Run1x1GConv_pack self filter N C_out C_in H_out H_in W_out W_in G hst
    rw [h1, h2, if_neg hne]
    exact ⟨rfl, rfl⟩
  | false =>
    have heq := (filterStale_eq_false_iff self filter).1 hst
    obtain ⟨h1, h2⟩ := Run1x1GConv_keep self filter N C_out C_in H_out H_in W_out W_in G hst
    rw [h1, h2, if_pos heq]
    exact ⟨rfl, heq⟩

theorem RunWithMECConv_filter_step (self : ConvOp) (filter : Tensor)
    (N C_out C_in H_out H_in W_out W_in : Nat) :
    (uploads (issued self
        (RunWithMECConv self filter N C_out C_in H_out H_in W_out W_in).2)).length =
      (if self.filterBuffer_.map Tensor.size = some filter.size then 0 else 1) ∧
    (images (issued self
        (RunWithMECConv self filter N C_out C_in H_out H_in W_out W_in).2)).length =
      (if self.filterBuffer_.map Tensor.size = some filter.size then 0 else 1) ∧
    (RunWithMECConv self filter N C_out C_in H_out H_in W_out W_in).2.filterBuffer_.map
      Tensor.size = some filter.size := by
  cases hst : self.filterStale filter with
  | true =>
    have hne : ¬ self.filterBuffer_.map Tensor.size = some filter.size := by
      rw [← filterStale_eq_false_iff, hst]; simp
    obtain ⟨h1, _, h2, h3⟩ :=
      RunWithMECConv_pack self filter N C_out C_in H_out H_in W_out W_in hst
    rw [h1, h2, h3, if_neg hne]
    exact ⟨rfl, rfl, rfl⟩
  | false =>
    have heq := (filterStale_eq_false_iff self filter).1 hst
    obtain ⟨h1, _, h2, h3⟩ :=
      RunWithMECConv_keep self filter N C_out C_in H_out H_in W_out W_in hst
    rw [h1, h2, h3, if_pos heq]
    exact ⟨rfl, rfl, heq⟩

theorem RunWithDirectConv_filter_step (self : ConvOp) (filter : Tensor)
    (N C_out C_in H_out H_in W_out W_in : Nat) :
    (uploads (issued self
        (RunWithDirectConv self filter N C_out C_in H_out H_in W_out W_in).2)).length =
      (if self.filterBuffer_.map Tensor.size = some filter.size then 0 else 1) ∧
    (images (issued self
        (RunWithDirectConv self filter N C_out C_in H_out H_in W_out W_in).2)).length =
      (if self.filterBuffer_.map Tensor.size = some filter.size then 0 else 1) ∧
    (RunWithDirectConv self filter N C_out C_in H_out H_in W_out W_in).2.filterBuffer_.map
      Tensor.size = some filter.size := by
  cases hst : self.filterStale filter with
  | true =>
    have hne : ¬ self.filterBuffer_.map Tensor.size = some filter.size := by
      rw [← filterStale_eq_false_iff, hst]; simp
    obtain ⟨h1, _, h2, h3⟩ :=
      RunWithDirectConv_pack self filter N C_out C_in H_out H_in W_out W_in hst
    rw [h1, h2, h3, if_neg hne]
    exact ⟨rfl, rfl, rfl⟩
  | false =>
    have heq := (filterStale_eq_false_iff self filter).1 hst
    obtain ⟨h1, _, h2, h3⟩ :=
      RunWithDirectConv_keep self filter N C_out C_in H_out H_in W_out W_in hst
    rw [h1, h2, h3, if_pos heq]
    exact ⟨rfl, rfl, heq⟩

theorem RunOnDeviceWithOrder_filter_step (S : OutputSizer) (self : ConvOp)
    (order : StorageOrder) (X filter : Tensor)
    (r : Bool × ConvOp) (hsq : at_ self.kernel_ 0 = at_ self.kernel_ 1)
    (h : RunOnDeviceWithOrder S self order X filter = .ok r) :
    sameConfig self r.2 ∧
    (uploads (issued self r.2)).length =
      (if self.filterBuffer_.map Tensor.size = some filter.size then 0 else 1) ∧
    (order = .NHWC → (images (issued self r.2)).length =
      (if self.filterBuffer_.map Tensor.size = some filter.size then 0 else 1)) ∧
    r.2.filterBuffer_.map Tensor.size = some filter.size := by
  unfold RunOnDeviceWithOrder at h
  cases order with
  | NCHW =>
    simp only at h
    obtain ⟨Y, -, -, -, -, -, -, hr⟩ := RunOnDeviceWithOrderNCHW_ok S self X filter r hsq h
    subst hr
    obtain ⟨h1, h2⟩ := Run1x1GConv_filter_step self filter (X.dim 0) (filter.dim 0) (X.dim 1)
      (at_ Y 2) (X.dim 2) (at_ Y 3) (X.dim 3) self.group_
    exact ⟨(Run1x1GConv_config _ _ _ _ _ _ _ _ _ _).1, h1, (fun hc => by cases hc), h2⟩
  | NHWC =>
    simp only at h
    obtain ⟨Y, -, -, -, -, -, -, hr⟩ := RunOnDeviceWithOrderNHWC_ok S self X filter r h
    subst hr
    by_cases hc : X.dim 3 ≥ 128 ∨ self.use_MEC = true
    · simp only [hc, if_true]
      obtain ⟨h1, h2, h3⟩ := RunWithMECConv_filter_step self filter (X.dim 0) (filter.dim 0)
        (X.dim 3) (at_ Y 1) (X.dim 1) (at_ Y 2) (X.dim 2)
      exact ⟨(RunWithMECConv_config _ _ _ _ _ _ _ _ _).1, h1, fun _ => h2, h3⟩
    · simp only [hc, if_false]
      obtain ⟨h1, h2, h3⟩ := RunWithDirectConv_filter_step self filter (X.dim 0) (filter.dim 0)
        (X.dim 3) (at_ Y 1) (X.dim 1) (at_ Y 2) (X.dim 2)
      exact ⟨(RunWithDirectConv_config _ _ _ _ _ _ _ _ _).1, h1, fun _ => h2, h3⟩

/-- C6: on an instance as the constructor leaves it (square kernel), a successful call
rebuilds the device filter buffer (one upload, and for the channel-minor strategies one
image) exactly when no device filter exists yet or the cached element count differs from
the host filter's, and issues no upload otherwise; after the call the cached element
count equals the host filter's.  Hence the next successful call rebuilds exactly once
when its filter size differs from this call's, and not at all when it is the same. -/
theorem filter_rebuilt_iff_size_differs (S : OutputSizer) (self : ConvOp)
    (order : StorageOrder) (X filter : Tensor)
    (b : Bool) (self' : ConvOp) (hsq : at_ self.kernel_ 0 = at_ self.kernel_ 1)
    (h : RunOnDeviceWithOrder S self order X filter = .ok (b, self')) :
    (uploads (issued self self')).length =
      (if self.filterBuffer_.map Tensor.size = some filter.size then 0 else 1) ∧
    (order = .NHWC → (images (issued self self')).length =
      (if self.filterBuffer_.map Tensor.size = some filter.size then 0 else 1)) ∧
    self'.filterBuffer_.map Tensor.size = some filter.size ∧
    (∀ (order2 : StorageOrder) (X2 filter2 : Tensor) (b2 : Bool) (self'' : ConvOp),
      RunOnDeviceWithOrder S self' order2 X2 filter2 = .ok (b2, self'') →
      (uploads (issued self' self'')).length = (if filter.size = filter2.size then 0 else 1)) := by
  obtain ⟨hcfg, h1, h2, h3⟩ :=
    RunOnDeviceWithOrder_filter_step S self order X filter (b, self') hsq h
  refine ⟨h1, h2, h3, ?_⟩
  intro order2 X2 filter2 b2 self'' h'
  have hsq' : at_ self'.kernel_ 0 = at_ self'.kernel_ 1 := by
    have hk : self.kernel_ = self'.kernel_ := hcfg.2.1
    rw [← hk]; exact hsq
  obtain ⟨_, h1', _, _⟩ :=
    RunOnDeviceWithOrder_filter_step S self' order2 X2 filter2 (b2, self'') hsq' h'
  rw [h1']
  simp only at h3
  rw [h3]
  simp

/-- Witness of C6: the first call on a fresh channel-minor instance uploads the filter
once. -/
theorem filter_rebuilt_iff_size_differs_witness :
    (at_ (nhwcOp 3 false).kernel_ 0 = at_ (nhwcOp 3 false).kernel_ 1 ∧
      RunOnDeviceWithOrder (outputNHWC 3) (nhwcOp 3 false) .NHWC (iota [1, 5, 5, 4])
          (iota [4, 3, 3, 4]) =
        .ok (true, (RunWithDirectConv (nhwcOp 3 false) (iota [4, 3, 3, 4]) 1 4 4 3 5 3 5).2)) ∧
    ((uploads (issued (nhwcOp 3 false)
        (RunWithDirectConv (nhwcOp 3 false) (iota [4, 3, 3, 4]) 1 4 4 3 5 3 5).2)).length =
      (if (nhwcOp 3 false).filterBuffer_.map Tensor.size = some (iota [4, 3, 3, 4]).size
        then 0 else 1) ∧
    (StorageOrder.NHWC = .NHWC → (images (issued (nhwcOp 3 false)
        (RunWithDirectConv (nhwcOp 3 false) (iota [4, 3, 3, 4]) 1 4 4 3 5 3 5).2)).length =
      (if (nhwcOp 3 false).filterBuffer_.map Tensor.size = some (iota [4, 3, 3, 4]).size
        then 0 else 1)) ∧
    (RunWithDirectConv (nhwcOp 3 false) (iota [4, 3, 3, 4]) 1 4 4 3 5 3 5).2.filterBuffer_.map
      Tensor.size = some (iota [4, 3, 3, 4]).size ∧
    (∀ (order2 : StorageOrder) (X2 filter2 : Tensor) (b2 : Bool) (self'' : ConvOp),
      RunOnDeviceWithOrder (outputNHWC 3)
        (RunWithDirectConv (nhwcOp 3 false) (iota [4, 3, 3, 4]) 1 4 4 3 5 3 5).2 order2 X2
          filter2 =
          .ok (b2, self'') →
      (uploads (issued (RunWithDirectConv (nhwcOp 3 false) (iota [4, 3, 3, 4]) 1 4 4 3 5 3 5).2
        self'')).length = (if (iota [4, 3, 3, 4]).size = filter2.size then 0 else 1))) :=
  ⟨⟨by decide, rfl⟩,
    filter_rebuilt_iff_size_differs (outputNHWC 3) (nhwcOp 3 false) .NHWC (iota [1, 5, 5, 4])
      (iota [4, 3, 3, 4]) true
      (RunWithDirectConv (nhwcOp 3 false) (iota [4, 3, 3, 4]) 1 4 4 3 5 3 5).2 (by decide) rfl⟩

theorem dispatched_append (a b : List DeviceCall) :
    dispatched (a ++ b) = dispatched a ++ dispatched b := by
  simp [dispatched, List.filterMap_append]

theorem compiled_append (a b : List DeviceCall) :
    compiled (a ++ b) = compiled a ++ compiled b := by
  simp [compiled, List.filterMap_append]

theorem Run1x1GConv_dispatched (self : ConvOp) (filter : Tensor)
    (N C_out C_in H_out H_in W_out W_in G : Nat) :
    dispatched (issued self (Run1x1GConv self filter N C_out C_in H_out H_in W_out W_in G).2)
      = [.k1x1Gemm] := by
  unfold Run1x1GConv issued
  simp only []
  split_ifs <;> simp [dispatched]

theorem programsConsistent_members (T : ElemType)
    (kernel_ stride_ : List Nat) (group_ : Nat) (use_MEC : Bool) :
    programsConsistent (ConvOp.members T kernel_ stride_ group_ use_MEC) := by
  simp [programsConsistent, ConvOp.members, dispatched, compiled]

theorem Run1x1GConv_consistent (self : ConvOp) (filter : Tensor)
    (N C_out C_in H_out H_in W_out W_in G : Nat) (h : programsConsistent self) :
    programsConsistent (Run1x1GConv self filter N C_out C_in H_out H_in W_out W_in G).2 := by
  obtain ⟨hc, hs, hk, hl, hg, hd⟩ :=
    Run1x1GConv_programs self filter N C_out C_in H_out H_in W_out W_in G
  have hctx := (Run1x1GConv_config self filter N C_out C_in H_out H_in W_out W_in G).2
  have hdis := Run1x1GConv_dispatched self filter N C_out C_in H_out H_in W_out W_in G
  obtain ⟨i1, i2, i3, i4, i5, i6, i7, i8, i9⟩ := h
  unfold programsConsistent
  rw [hctx, dispatched_append, compiled_append, hdis, hc, hl, hg, hd, hs]
  cases hsome : self.gemm1x1Kernel_.isSome
  · have hn : KernelSource.k1x1Gemm ∉ compiled self.ctx := by
      rw [← i5, hsome]; simp
    refine ⟨by simp, ?_, ?_, ?_, by simp, ?_, ?_, ?_, ?_⟩
    · rw [i2]; simp
    · rw [i3]; simp
    · rw [i4]; simp
    · rw [i6]; simp
    · rw [i7]; simp
    · rw [i8]; simp
    · rw [List.nodup_append]; simp [i9, hn]
  · have hy : KernelSource.k1x1Gemm ∈ compiled self.ctx := by
      rw [← i5, hsome]
    refine ⟨by simp, ?_, ?_, ?_, by simp [hy], ?_, ?_, ?_, ?_⟩
    · rw [i2]; simp
    · rw [i3]; simp
    · rw [i4]; simp
    · rw [i6]; simp
    · rw [i7]; simp
    · rw [i8]; simp
    · simpa using i9

theorem RunWithMECConv_consistent (self : ConvOp) (filter : Tensor)
    (N C_out C_in H_out H_in W_out W_in : Nat) (h : programsConsistent self) :
    programsConsistent (RunWithMECConv self filter N C_out C_in H_out H_in W_out W_in).2 := by
  obtain ⟨hc, hsl, hsg, hk, h1, hd⟩ :=
    RunWithMECConv_programs self filter N C_out C_in H_out H_in W_out W_in
  have hctx := (RunWithMECConv_config self filter N C_out C_in H_out H_in W_out W_in).2
  have hdis := RunWithMECConv_dispatched self filter N C_out C_in H_out H_in W_out W_in
  obtain ⟨i1, i2, i3, i4, i5, i6, i7, i8, i9⟩ := h
  unfold programsConsistent
  rw [hctx, dispatched_append, compiled_append, hdis, hc, h1, hd, hsl, hsg]
  cases hsome : self.gemmKernel_.isSome
  · have hn : KernelSource.kMECGemm ∉ compiled self.ctx := by
      rw [← i7, hsome]; simp
    have hn' : KernelSource.kMECGemm ∉ dispatched self.ctx := by
      rw [← i3, hsome]; simp
    have hl : self.loweringKernel_.isSome = false := by
      cases hx : self.loweringKernel_.isSome
      · rfl
      · exact absurd (i2.1 hx) hn'
    have hnl : KernelSource.kMECLowering ∉ compiled self.ctx := by
      rw [← i6, hl]; simp
    refine ⟨?_, by simp, by simp, ?_, ?_, by simp [hl], by simp [hl], ?_, ?_⟩
    · rw [i1]; simp
    · rw [i4]; simp
    · rw [i5]; simp [hl]
    · rw [i8]; simp [hl]
    · rw [List.nodup_append]; simp [i9, hn, hnl, hl]
  · have hl : self.loweringKernel_.isSome = true := i2.2 (i3.1 hsome)
    have hy : KernelSource.kMECGemm ∈ compiled self.ctx := by rw [← i7, hsome]
    have hyl : KernelSource.kMECLowering ∈ compiled self.ctx := by rw [← i6, hl]
    refine ⟨?_, by simp, by simp, ?_, ?_, by simp [hl, hyl], by simp [hl, hy], ?_, ?_⟩
    · rw [i1]; simp
    · rw [i4]; simp
    · rw [i5]; simp [hl]
    · rw [i8]; simp [hl]
    · simpa [hl] using i9

theorem RunWithDirectConv_consistent (self : ConvOp) (filter : Tensor)
    (N C_out C_in H_out H_in W_out W_in : Nat) (h : programsConsistent self) :
    programsConsistent (RunWithDirectConv self filter N C_out C_in H_out H_in W_out W_in).2 := by
  obtain ⟨hc, hs, hk, hl, hg, h1⟩ :=
    RunWithDirectConv_programs self filter N C_out C_in H_out H_in W_out W_in
  have hctx := (RunWithDirectConv_config self filter N C_out C_in H_out H_in W_out W_in).2
  have hdis := RunWithDirectConv_dispatched self filter N C_out C_in H_out H_in W_out W_in
  obtain ⟨i1, i2, i3, i4, i5, i6, i7, i8, i9⟩ := h
  unfold programsConsistent
  rw [hctx, dispatched_append, compiled_append, hdis, hc, hl, hg, h1, hs]
  cases hsome : self.directKernel_.isSome
  · have hn : KernelSource.kDirectConv ∉ compiled self.ctx := by
      rw [← i8, hsome]; simp
    refine ⟨?_, ?_, ?_, by simp, ?_, ?_, ?_, by simp, ?_⟩
    · rw [i1]; simp
    · rw [i2]; simp
    · rw [i3]; simp
    · rw [i5]; simp
    · rw [i6]; simp
    · rw [i7]; simp
    · rw [List.nodup_append]; simp [i9, hn]
  · have hy : KernelSource.kDirectConv ∈ compiled self.ctx := by
      rw [← i8, hsome]
    refine ⟨?_, ?_, ?_, by simp, ?_, ?_, ?_, by simp [hy], ?_⟩
    · rw [i1]; simp
    · rw [i2]; simp
    · rw [i3]; simp
    · rw [i5]; simp
    · rw [i6]; simp
    · rw [i7]; simp
    · simpa using i9

theorem ConvOp.new_ok (T : ElemType) (kernel_ stride_ : List Nat)
    (group_ : Nat) (use_MEC : Bool) (self0 : ConvOp)
    (h : ConvOp.new T kernel_ stride_ group_ use_MEC = .ok self0) :
    self0 = ConvOp.members T kernel_ stride_ group_ use_MEC ∧
      at_ kernel_ 0 = at_ kernel_ 1 := by
  unfold ConvOp.new at h
  split_ifs at h with hsq
  exact ⟨(Except.ok.inj h).symm, hsq⟩

theorem after_consistent (S : OutputSizer) (self : ConvOp) (order : StorageOrder)
    (X filter : Tensor)
    (hsq : at_ self.kernel_ 0 = at_ self.kernel_ 1) (h : programsConsistent self) :
    programsConsistent (self.after (RunOnDeviceWithOrder S self order X filter)) ∧
    sameConfig self (self.after (RunOnDeviceWithOrder S self order X filter)) := by
  cases hr : RunOnDeviceWithOrder S self order X filter with
  | error e =>
    obtain ⟨msg, s⟩ := e
    have hs := RunOnDeviceWithOrder_error S self order X filter msg s hr
    subst hs
    exact ⟨h, rfl, rfl, rfl, rfl, rfl, rfl⟩
  | ok r =>
    simp only [ConvOp.after]
    unfold RunOnDeviceWithOrder at hr
    cases order with
    | NCHW =>
      simp only at hr
      obtain ⟨Y, -, -, -, -, -, -, hr'⟩ := RunOnDeviceWithOrderNCHW_ok S self X filter r hsq hr
      subst hr'
      exact ⟨Run1x1GConv_consistent _ _ _ _ _ _ _ _ _ _ h,
        (Run1x1GConv_config _ _ _ _ _ _ _ _ _ _).1⟩
    | NHWC =>
      simp only at hr
      obtain ⟨Y, -, -, -, -, -, -, hr'⟩ := RunOnDeviceWithOrderNHWC_ok S self X filter r hr
      subst hr'
      by_cases hc : X.dim 3 ≥ 128 ∨ self.use_MEC = true
      · simp only [hc, if_true]
        exact ⟨RunWithMECConv_consistent _ _ _ _ _ _ _ _ _ h,
          (RunWithMECConv_config _ _ _ _ _ _ _ _ _).1⟩
      · simp only [hc, if_false]
        exact ⟨RunWithDirectConv_consistent _ _ _ _ _ _ _ _ _ h,
          (RunWithDirectConv_config _ _ _ _ _ _ _ _ _).1⟩

theorem sameConfig_trans (a b c : ConvOp) (h1 : sameConfig a b) (h2 : sameConfig b c) :
    sameConfig a c := by
  obtain ⟨a1, a2, a3, a4, a5, a6⟩ := h1
  obtain ⟨b1, b2, b3, b4, b5, b6⟩ := h2
  exact ⟨a1.trans b1, a2.trans b2, a3.trans b3, a4.trans b4, a5.trans b5, a6.trans b6⟩

theorem runCalls_consistent (S : OutputSizer) (calls : List (StorageOrder × Tensor × Tensor)) :
    ∀ (self : ConvOp), at_ self.kernel_ 0 = at_ self.kernel_ 1 → programsConsistent self →
      programsConsistent (runCalls S self calls) ∧ sameConfig self (runCalls S self calls) := by
  induction calls with
  | nil => intro self _ h; exact ⟨h, rfl, rfl, rfl, rfl, rfl, rfl⟩
  | cons c rest ih =>
    intro self hsq h
    obtain ⟨order, X, filter⟩ := c
    obtain ⟨h1, h2⟩ := after_consistent S self order X filter hsq h
    have hsq' : at_ (self.after (RunOnDeviceWithOrder S self order X filter)).kernel_ 0 =
        at_ (self.after (RunOnDeviceWithOrder S self order X filter)).kernel_ 1 := by
      rw [← h2.2.1]; exact hsq
    obtain ⟨h3, h4⟩ := ih _ hsq' h1
    exact ⟨h3, sameConfig_trans _ _ _ h2 h4⟩

/-- C7: over any sequence of calls on a constructed instance, every successful call runs
one strategy, and it compiles the programs of that strategy (one for Grouped-1x1-GEMM,
the lowering and the GEMM program together for Lowering+GEMM, one for Direct-Convolution)
exactly when no earlier call of the sequence has dispatched that strategy; otherwise it
compiles nothing.  A program object that exists before a call is the same object after
it, whatever the shapes of the call, and no program is compiled twice in the whole
history of the instance. -/
theorem programs_compiled_once (S : OutputSizer) (T : ElemType)
    (kernel_ stride_ : List Nat) (group_ : Nat) (use_MEC : Bool) (self0 : ConvOp)
    (hnew : ConvOp.new T kernel_ stride_ group_ use_MEC = .ok self0)
    (calls : List (StorageOrder × Tensor × Tensor)) (self : ConvOp)
    (hself : runCalls S self0 calls = self)
    (order : StorageOrder) (X filter : Tensor) (b : Bool) (self' : ConvOp)
    (h : RunOnDeviceWithOrder S self order X filter = .ok (b, self')) :
    (dispatched (issued self self') = [KernelSource.k1x1Gemm] ∧
        compiled (issued self self') =
          (if KernelSource.k1x1Gemm ∈ dispatched self.ctx then []
            else [KernelSource.k1x1Gemm]) ∨
      dispatched (issued self self') = [KernelSource.kMECLowering, KernelSource.kMECGemm] ∧
        compiled (issued self self') =
          (if KernelSource.kMECGemm ∈ dispatched self.ctx then []
            else [KernelSource.kMECLowering, KernelSource.kMECGemm]) ∨
      dispatched (issued self self') = [KernelSource.kDirectConv] ∧
        compiled (issued self self') =
          (if KernelSource.kDirectConv ∈ dispatched self.ctx then []
            else [KernelSource.kDirectConv])) ∧
    (self.gemm1x1Kernel_.isSome → self'.gemm1x1Kernel_ = self.gemm1x1Kernel_) ∧
    (self.loweringKernel_.isSome → self'.loweringKernel_ = self.loweringKernel_) ∧
    (self.gemmKernel_.isSome → self'.gemmKernel_ = self.gemmKernel_) ∧
    (self.directKernel_.isSome → self'.directKernel_ = self.directKernel_) ∧
    (compiled self'.ctx).Nodup := by
  obtain ⟨h0, hsq0⟩ := ConvOp.new_ok T kernel_ stride_ group_ use_MEC self0 hnew
  have hc0 : programsConsistent self0 := by
    rw [h0]; exact programsConsistent_members _ _ _ _ _
  have hk0 : at_ self0.kernel_ 0 = at_ self0.kernel_ 1 := by
    rw [h0]; exact hsq0
  obtain ⟨hcons, hcfg⟩ := runCalls_consistent S calls self0 hk0 hc0
  rw [hself] at hcons hcfg
  have hsq : at_ self.kernel_ 0 = at_ self.kernel_ 1 := by
    rw [← hcfg.2.1]; exact hk0
  have hafter := (after_consistent S self order X filter hsq hcons).1
  rw [h] at hafter
  simp only [ConvOp.after] at hafter
  obtain ⟨i1, i2, i3, i4, i5, i6, i7, i8, i9⟩ := hcons
  refine ⟨?_, ?_, ?_, ?_, ?_, hafter.2.2.2.2.2.2.2.2⟩
  all_goals
    unfold RunOnDeviceWithOrder at h
    cases order with
    | NCHW =>
      simp only at h
      obtain ⟨Y, -, -, -, -, -, -, hr⟩ :=
        RunOnDeviceWithOrderNCHW_ok S self X filter (b, self') hsq h
      obtain ⟨hc, hs, hk, hl, hg, hd⟩ := Run1x1GConv_programs self filter (X.dim 0)
        (filter.dim 0) (X.dim 1) (at_ Y 2) (X.dim 2) (at_ Y 3) (X.dim 3) self.group_
      have hdis := Run1x1GConv_dispatched self filter (X.dim 0)
        (filter.dim 0) (X.dim 1) (at_ Y 2) (X.dim 2) (at_ Y 3) (X.dim 3) self.group_
      rw [← hr] at hc hs hk hl hg hd hdis
      simp only at hc hs hk hl hg hd hdis
      first
        | exact fun _ => hl
        | exact fun _ => hg
        | exact fun _ => hd
        | exact hk
        | (left
           refine ⟨hdis, ?_⟩
           rw [hc]
           by_cases hm : KernelSource.k1x1Gemm ∈ dispatched self.ctx
           · rw [if_pos hm, if_pos (i1.2 hm)]
           · rw [if_neg hm, if_neg (fun hx => hm (i1.1 hx))])
    | NHWC =>
      simp only at h
      obtain ⟨Y, -, -, -, -, -, -, hr⟩ :=
        RunOnDeviceWithOrderNHWC_ok S self X filter (b, self') h
      by_cases hcond : X.dim 3 ≥ 128 ∨ self.use_MEC = true
      · simp only [hcond, if_true] at hr
        obtain ⟨hc, hsl, hsg, hk, h1, hd⟩ := RunWithMECConv_programs self filter (X.dim 0)
          (filter.dim 0) (X.dim 3) (at_ Y 1) (X.dim 1) (at_ Y 2) (X.dim 2)
        have hdis := RunWithMECConv_dispatched self filter (X.dim 0)
          (filter.dim 0) (X.dim 3) (at_ Y 1) (X.dim 1) (at_ Y 2) (X.dim 2)
        rw [← hr] at hc hsl hsg hk h1 hd hdis
        simp only at hc hsl hsg hk h1 hd hdis
        first
          | exact fun _ => h1
          | exact fun _ => hd
          | exact fun hx => (hk ⟨hx, i3.2 (i2.1 hx)⟩).1
          | exact fun hx => (hk ⟨i2.2 (i3.1 hx), hx⟩).2
          | (right; left
             refine ⟨hdis, ?_⟩
             rw [hc]
             by_cases hm : KernelSource.kMECGemm ∈ dispatched self.ctx
             · rw [if_pos hm, if_pos ⟨i2.2 hm, i3.2 hm⟩]
             · rw [if_neg hm, if_neg (fun hx => hm (i3.1 hx.2))])
      · simp only [hcond, if_false] at hr
        obtain ⟨hc, hs, hk, hl, hg, h1⟩ := RunWithDirectConv_programs self filter (X.dim 0)
          (filter.dim 0) (X.dim 3) (at_ Y 1) (X.dim 1) (at_ Y 2) (X.dim 2)
        have hdis := RunWithDirectConv_dispatched self filter (X.dim 0)
          (filter.dim 0) (X.dim 3) (at_ Y 1) (X.dim 1) (at_ Y 2) (X.dim 2)
        rw [← hr] at hc hs hk hl hg h1 hdis
        simp only at hc hs hk hl hg h1 hdis
        first
          | exact fun _ => h1
          | exact fun _ => hl
          | exact fun _ => hg
          | exact hk
          | (right; right
             refine ⟨hdis, ?_⟩
             rw [hc]
             by_cases hm : KernelSource.kDirectConv ∈ dispatched self.ctx
             · rw [if_pos hm, if_pos (i4.2 hm)]
             · rw [if_neg hm, if_neg (fun hx => hm (i4.1 hx))])

/-- Witness of C7: the second of two calls of the same shape on a fresh channel-minor
instance runs Direct-Convolution again and compiles nothing. -/
theorem programs_compiled_once_witness :
    (ConvOp.new .float [3, 3] [1, 1] 1 false = .ok (nhwcOp 3 false) ∧
      runCalls (outputNHWC 3) (nhwcOp 3 false)
        [(.NHWC, iota [1, 5, 5, 4], iota [4, 3, 3, 4])] = afterFirstCall ∧
      RunOnDeviceWithOrder (outputNHWC 3) afterFirstCall .NHWC (iota [1, 5, 5, 4])
        (iota [4, 3, 3, 4]) = .ok (true, afterSecondCall) ∧
      compiled (issued afterFirstCall afterSecondCall) = []) ∧
    ((dispatched (issued afterFirstCall afterSecondCall) = [KernelSource.k1x1Gemm] ∧
        compiled (issued afterFirstCall afterSecondCall) =
          (if KernelSource.k1x1Gemm ∈ dispatched afterFirstCall.ctx then []
            else [KernelSource.k1x1Gemm]) ∨
      dispatched (issued afterFirstCall afterSecondCall) =
          [KernelSource.kMECLowering, KernelSource.kMECGemm] ∧
        compiled (issued afterFirstCall afterSecondCall) =
          (if KernelSource.kMECGemm ∈ dispatched afterFirstCall.ctx then []
            else [KernelSource.kMECLowering, KernelSource.kMECGemm]) ∨
      dispatched (issued afterFirstCall afterSecondCall) = [KernelSource.kDirectConv] ∧
        compiled (issued afterFirstCall afterSecondCall) =
          (if KernelSource.kDirectConv ∈ dispatched afterFirstCall.ctx then []
            else [KernelSource.kDirectConv])) ∧
    (afterFirstCall.gemm1x1Kernel_.isSome →
      afterSecondCall.gemm1x1Kernel_ = afterFirstCall.gemm1x1Kernel_) ∧
    (afterFirstCall.loweringKernel_.isSome →
      afterSecondCall.loweringKernel_ = afterFirstCall.loweringKernel_) ∧
    (afterFirstCall.gemmKernel_.isSome →
      afterSecondCall.gemmKernel_ = afterFirstCall.gemmKernel_) ∧
    (afterFirstCall.directKernel_.isSome →
      afterSecondCall.directKernel_ = afterFirstCall.directKernel_) ∧
    (compiled afterSecondCall.ctx).Nodup) :=
  ⟨⟨rfl, rfl, rfl, rfl⟩,
    programs_compiled_once (outputNHWC 3) .float [3, 3] [1, 1] 1 false (nhwcOp 3 false) rfl
      [(.NHWC, iota [1, 5, 5, 4], iota [4, 3, 3, 4])] afterFirstCall rfl
      .NHWC (iota [1, 5, 5, 4]) (iota [4, 3, 3, 4]) true afterSecondCall rfl⟩

/-! ## The filter image at the launch -/

theorem RunWithMECConv_bound (self : ConvOp) (filter : Tensor)
    (N C_out C_in H_out H_in W_out W_in : Nat) :
    boundImages (issued self (RunWithMECConv self filter N C_out C_in H_out H_in W_out W_in).2) =
      [(KernelSource.kMECGemm,
        (RunWithMECConv self filter N C_out C_in H_out H_in W_out W_in).2.filterBufferImage_)] := by
  unfold RunWithMECConv issued
  simp only []
  split_ifs <;> simp [boundImages]

theorem RunWithDirectConv_bound (self : ConvOp) (filter : Tensor)
    (N C_out C_in H_out H_in W_out W_in : Nat) :
    boundImages (issued self
        (RunWithDirectConv self filter N C_out C_in H_out H_in W_out W_in).2) =
      [(KernelSource.kDirectConv,
        (RunWithDirectConv self filter N C_out C_in H_out H_in W_out W_in).2.filterBufferImage_)] := by
  unfold RunWithDirectConv issued
  simp only []
  split_ifs <;> simp [boundImages]

theorem Tensor.dims_of_ndim_four (t : Tensor) (h : t.ndim = 4) :
    t.dims = [t.dim 0, t.dim 1, t.dim 2, t.dim 3] := by
  obtain ⟨dims, data⟩ := t
  simp only [Tensor.ndim] at h
  match dims, h with
  | [a, b, c, d], _ => rfl

theorem strategyImage_congr (a b : ConvOp) (h : sameConfig a b) (f : Tensor) (C_out C_in : Nat) :
    strategyImage a f C_out C_in = strategyImage b f C_out C_in := by
  obtain ⟨h1, h3, _, _, h6, h7⟩ := h
  simp only [strategyImage, h1, h3, h6, h7]

theorem uploads_append (a b : List DeviceCall) :
    uploads (a ++ b) = uploads a ++ uploads b := by
  simp [uploads, List.filterMap_append]

theorem lastPackedDims_append_nil (a b : List DeviceCall) (h : uploads b = []) :
    lastPackedDims (a ++ b) = lastPackedDims a := by
  simp [lastPackedDims, uploads_append, h]

theorem lastPackedDims_append_one (a b : List DeviceCall) (t : Tensor) (h : uploads b = [t]) :
    lastPackedDims (a ++ b) = some t.dims := by
  simp [lastPackedDims, uploads_append, h]

theorem transposedFilter_dims (filter : Tensor) (H W : Nat) :
    (transposedFilter filter H W).dims = filter.dims := rfl

theorem RunOnDeviceWithOrderNHWC_pack_step (S : OutputSizer) (self : ConvOp)
    (X filter : Tensor) (r : Bool × ConvOp)
    (hst : self.filterStale filter = true)
    (h : RunOnDeviceWithOrderNHWC S self X filter = .ok r) :
    sameConfig self r.2 ∧
    filter.dims = [filter.dim 0, at_ self.kernel_ 0, at_ self.kernel_ 1, X.dim 3] ∧
    lastPackedDims r.2.ctx = some filter.dims ∧
    r.2.filterBuffer_.map Tensor.size = some filter.size ∧
    r.2.filterBufferImage_ = some (strategyImage self filter (filter.dim 0) (X.dim 3)) ∧
    boundImages (issued self r.2) =
      [(if X.dim 3 ≥ 128 ∨ self.use_MEC = true then KernelSource.kMECGemm
          else KernelSource.kDirectConv,
        some (strategyImage self filter (filter.dim 0) (X.dim 3)))] := by
  obtain ⟨Y, -, hnd, hC, hk0, hk1, -, hr⟩ := RunOnDeviceWithOrderNHWC_ok S self X filter r h
  have hdims : filter.dims = [filter.dim 0, at_ self.kernel_ 0, at_ self.kernel_ 1, X.dim 3] := by
    rw [← hk0, ← hk1, ← hC]; exact Tensor.dims_of_ndim_four filter hnd
  by_cases hcond : X.dim 3 ≥ 128 ∨ self.use_MEC = true
  · simp only [hcond, if_true] at hr ⊢
    subst hr
    obtain ⟨h1, h2, h3, _⟩ := RunWithMECConv_pack self filter (X.dim 0) (filter.dim 0)
      (X.dim 3) (at_ Y 1) (X.dim 1) (at_ Y 2) (X.dim 2) hst
    obtain ⟨hcfg, hctx⟩ := RunWithMECConv_config self filter (X.dim 0) (filter.dim 0)
      (X.dim 3) (at_ Y 1) (X.dim 1) (at_ Y 2) (X.dim 2)
    have himg : (RunWithMECConv self filter (X.dim 0) (filter.dim 0)
        (X.dim 3) (at_ Y 1) (X.dim 1) (at_ Y 2) (X.dim 2)).2.filterBufferImage_ =
        some (strategyImage self filter (filter.dim 0) (X.dim 3)) := by
      rw [h2]; simp only [strategyImage, hcond, if_true]
    refine ⟨hcfg, hdims, ?_, ?_, himg, ?_⟩
    · rw [hctx, lastPackedDims_append_one _ _ _ h3, transposedFilter_dims]
    · rw [h1]; rfl
    · rw [RunWithMECConv_bound, himg]
  · simp only [hcond, if_false] at hr ⊢
    subst hr
    obtain ⟨h1, h2, h3, _⟩ := RunWithDirectConv_pack self filter (X.dim 0) (filter.dim 0)
      (X.dim 3) (at_ Y 1) (X.dim 1) (at_ Y 2) (X.dim 2) hst
    obtain ⟨hcfg, hctx⟩ := RunWithDirectConv_config self filter (X.dim 0) (filter.dim 0)
      (X.dim 3) (at_ Y 1) (X.dim 1) (at_ Y 2) (X.dim 2)
    have himg : (RunWithDirectConv self filter (X.dim 0) (filter.dim 0)
        (X.dim 3) (at_ Y 1) (X.dim 1) (at_ Y 2) (X.dim 2)).2.filterBufferImage_ =
        some (strategyImage self filter (filter.dim 0) (X.dim 3)) := by
      rw [h2]; simp only [strategyImage, hcond, if_false]
    refine ⟨hcfg, hdims, ?_, ?_, himg, ?_⟩
    · rw [hctx, lastPackedDims_append_one _ _ _ h3]
    · rw [h1]; rfl
    · rw [RunWithDirectConv_bound, himg]

theorem RunOnDeviceWithOrderNHWC_keep_step (S : OutputSizer) (self : ConvOp)
    (X filter : Tensor) (r : Bool × ConvOp)
    (hst : self.filterStale filter = false)
    (h : RunOnDeviceWithOrderNHWC S self X filter = .ok r) :
    sameConfig self r.2 ∧
    filter.dims = [filter.dim 0, at_ self.kernel_ 0, at_ self.kernel_ 1, X.dim 3] ∧
    lastPackedDims r.2.ctx = lastPackedDims self.ctx ∧
    r.2.filterBuffer_ = self.filterBuffer_ ∧
    r.2.filterBufferImage_ = self.filterBufferImage_ ∧
    boundImages (issued self r.2) =
      [(if X.dim 3 ≥ 128 ∨ self.use_MEC = true then KernelSource.kMECGemm
          else KernelSource.kDirectConv,
        self.filterBufferImage_)] := by
  obtain ⟨Y, -, hnd, hC, hk0, hk1, -, hr⟩ := RunOnDeviceWithOrderNHWC_ok S self X filter r h
  have hdims : filter.dims = [filter.dim 0, at_ self.kernel_ 0, at_ self.kernel_ 1, X.dim 3] := by
    rw [← hk0, ← hk1, ← hC]; exact Tensor.dims_of_ndim_four filter hnd
  by_cases hcond : X.dim 3 ≥ 128 ∨ self.use_MEC = true
  · simp only [hcond, if_true] at hr ⊢
    subst hr
    obtain ⟨h1, h2, h3, _⟩ := RunWithMECConv_keep self filter (X.dim 0) (filter.dim 0)
      (X.dim 3) (at_ Y 1) (X.dim 1) (at_ Y 2) (X.dim 2) hst
    obtain ⟨hcfg, hctx⟩ := RunWithMECConv_config self filter (X.dim 0) (filter.dim 0)
      (X.dim 3) (at_ Y 1) (X.dim 1) (at_ Y 2) (X.dim 2)
    refine ⟨hcfg, hdims, ?_, h1, h2, ?_⟩
    · rw [hctx, lastPackedDims_append_nil _ _ h3]
    · rw [RunWithMECConv_bound, h2]
  · simp only [hcond, if_false] at hr ⊢
    subst hr
    obtain ⟨h1, h2, h3, _⟩ := RunWithDirectConv_keep self filter (X.dim 0) (filter.dim 0)
      (X.dim 3) (at_ Y 1) (X.dim 1) (at_ Y 2) (X.dim 2) hst
    obtain ⟨hcfg, hctx⟩ := RunWithDirectConv_config self filter (X.dim 0) (filter.dim 0)
      (X.dim 3) (at_ Y 1) (X.dim 1) (at_ Y 2) (X.dim 2)
    refine ⟨hcfg, hdims, ?_, h1, h2, ?_⟩
    · rw [hctx, lastPackedDims_append_nil _ _ h3]
    · rw [RunWithDirectConv_bound, h2]

theorem cachedFrom_mono (self : ConvOp) (fs fs' : List Tensor)
    (hsub : ∀ f ∈ fs, f ∈ fs') (h : cachedFrom self fs) : cachedFrom self fs' := by
  rcases h with h | ⟨f, hf, h⟩
  · exact Or.inl h
  · exact Or.inr ⟨f, hsub f hf, h⟩

theorem after_cachedFrom (S : OutputSizer) (self : ConvOp) (X filter : Tensor)
    (fs : List Tensor) (hc : cachedFrom self fs) :
    sameConfig self (self.after (RunOnDeviceWithOrderNHWC S self X filter)) ∧
    cachedFrom (self.after (RunOnDeviceWithOrderNHWC S self X filter)) (fs ++ [filter]) := by
  cases hr : RunOnDeviceWithOrderNHWC S self X filter with
  | error e =>
    obtain ⟨msg, s⟩ := e
    have hs := RunOnDeviceWithOrderNHWC_error S self X filter msg s hr
    subst hs
    exact ⟨⟨rfl, rfl, rfl, rfl, rfl, rfl⟩,
      cachedFrom_mono _ _ _ (fun f hf => List.mem_append_left _ hf) hc⟩
  | ok r =>
    simp only [ConvOp.after]
    cases hst : self.filterStale filter with
    | true =>
      obtain ⟨hcfg, hdims, hlast, hsz, himg, -⟩ :=
        RunOnDeviceWithOrderNHWC_pack_step S self X filter r hst hr
      refine ⟨hcfg, Or.inr ⟨filter, by simp, filter.dim 0, X.dim 3, ?_, hlast, hsz, ?_⟩⟩
      · rw [← hcfg.2.1]; exact hdims
      · rw [himg, strategyImage_congr self r.2 hcfg]
    | false =>
      obtain ⟨hcfg, -, hlast, hbuf, himg, -⟩ :=
        RunOnDeviceWithOrderNHWC_keep_step S self X filter r hst hr
      refine ⟨hcfg, ?_⟩
      rcases hc with hnone | ⟨f, hf, C_out, C_in, hfd, hfl, hfs, hfi⟩
      · left; rw [hbuf]; exact hnone
      · refine Or.inr ⟨f, by simp [hf], C_out, C_in, ?_, ?_, ?_, ?_⟩
        · rw [← hcfg.2.1]; exact hfd
        · rw [hlast]; exact hfl
        · rw [hbuf]; exact hfs
        · rw [himg, hfi, strategyImage_congr self r.2 hcfg]

theorem runCalls_cachedFrom (S : OutputSizer) (pre : List (StorageOrder × Tensor × Tensor)) :
    ∀ (self : ConvOp) (fs : List Tensor),
      cachedFrom self fs →
      (∀ c ∈ pre, c.1 = .NHWC) →
      sameConfig self (runCalls S self pre) ∧
      cachedFrom (runCalls S self pre) (fs ++ pre.map fun c => c.2.2) := by
  induction pre with
  | nil =>
    intro self fs hc _
    exact ⟨⟨rfl, rfl, rfl, rfl, rfl, rfl⟩, by simpa [runCalls] using hc⟩
  | cons c rest ih =>
    intro self fs hc hpre
    obtain ⟨order, X, filter⟩ := c
    have ho := hpre (order, X, filter) (List.mem_cons_self _ _)
    simp only at ho
    subst ho
    obtain ⟨hcfg, hc'⟩ := after_cachedFrom S self X filter fs hc
    obtain ⟨h1, h2⟩ := ih _ (fs ++ [filter]) hc'
      (fun c hcm => hpre c (List.mem_cons_of_mem _ hcm))
    refine ⟨sameConfig_trans _ _ _ hcfg h1, ?_⟩
    simpa [runCalls, RunOnDeviceWithOrder] using h2

/-- C10 as amended: in a sequence of channel-minor calls on a constructed instance, let
the current call either repack the filter (no filter is cached, or the cached element
count differs) or find cached a filter that was last packed with the extents of the
current filter.  Then the call, when it succeeds, binds exactly one filter image to the
compute kernel of its strategy, and that image is the one this strategy packs for the
current `C_out`, `C_in` and kernel size from a filter of the sequence with the extents of
the current filter: the transposed `(C_out/4, C_in*K*K)` image for Lowering+GEMM, the
untransposed `(K*K*C_in/4, C_out)` image for Direct-Convolution.  The only calls left out
are those that find a cached filter of the same element count but of other extents. -/
theorem launch_binds_image_of_current_extents (S : OutputSizer) (T : ElemType)
    (kernel_ stride_ : List Nat) (group_ : Nat) (use_MEC : Bool) (self0 : ConvOp)
    (hnew : ConvOp.new T kernel_ stride_ group_ use_MEC = .ok self0)
    (pre : List (StorageOrder × Tensor × Tensor)) (X filter : Tensor)
    (hpre : ∀ c ∈ pre, c.1 = .NHWC)
    (hpacked : (runCalls S self0 pre).filterStale filter = true ∨
      lastPackedDims (runCalls S self0 pre).ctx = some filter.dims)
    (b : Bool) (self' : ConvOp)
    (h : RunOnDeviceWithOrderNHWC S (runCalls S self0 pre) X filter = .ok (b, self')) :
    ∃ f ∈ (pre.map fun c => c.2.2) ++ [filter], f.dims = filter.dims ∧
      boundImages (issued (runCalls S self0 pre) self') =
        [(if X.dim 3 ≥ 128 ∨ use_MEC = true then KernelSource.kMECGemm
            else KernelSource.kDirectConv,
          some (if X.dim 3 ≥ 128 ∨ use_MEC = true
            then mecImage self0.filter_image_format_ f (filter.dim 0) (X.dim 3)
              (at_ kernel_ 0) (at_ kernel_ 1)
            else directImage T f (filter.dim 0) (X.dim 3) (at_ kernel_ 0) (at_ kernel_ 1)))] ∧
      (mecImage self0.filter_image_format_ f (filter.dim 0) (X.dim 3)
          (at_ kernel_ 0) (at_ kernel_ 1)).width = filter.dim 0 / 4 ∧
      (mecImage self0.filter_image_format_ f (filter.dim 0) (X.dim 3)
          (at_ kernel_ 0) (at_ kernel_ 1)).height = X.dim 3 * at_ kernel_ 1 * at_ kernel_ 0 ∧
      (directImage T f (filter.dim 0) (X.dim 3) (at_ kernel_ 0) (at_ kernel_ 1)).width =
        at_ kernel_ 0 * at_ kernel_ 1 * X.dim 3 / 4 ∧
      (directImage T f (filter.dim 0) (X.dim 3) (at_ kernel_ 0) (at_ kernel_ 1)).height =
        filter.dim 0 := by
  obtain ⟨h0, -⟩ := ConvOp.new_ok T kernel_ stride_ group_ use_MEC self0 hnew
  have hc0 : cachedFrom self0 [] := by
    left; rw [h0]; rfl
  obtain ⟨hcfg, hc⟩ := runCalls_cachedFrom S pre self0 [] hc0 hpre
  have hu : self0.use_MEC = use_MEC := by rw [h0]; rfl
  have hk : self0.kernel_ = kernel_ := by rw [h0]; rfl
  have hT : self0.T = T := by rw [h0]; rfl
  have hshape : ∀ f : Tensor,
      some (strategyImage (runCalls S self0 pre) f (filter.dim 0) (X.dim 3)) =
      some (if X.dim 3 ≥ 128 ∨ use_MEC = true
        then mecImage self0.filter_image_format_ f (filter.dim 0) (X.dim 3)
          (at_ kernel_ 0) (at_ kernel_ 1)
        else directImage T f (filter.dim 0) (X.dim 3) (at_ kernel_ 0) (at_ kernel_ 1)) := by
    intro f
    rw [← strategyImage_congr self0 _ hcfg]
    simp only [strategyImage, hu, hk, hT]
  have huse : (runCalls S self0 pre).use_MEC = use_MEC := by
    rw [← hcfg.2.2.2.2.2]; exact hu
  cases hst : (runCalls S self0 pre).filterStale filter with
  | true =>
    obtain ⟨-, -, -, -, -, hb⟩ :=
      RunOnDeviceWithOrderNHWC_pack_step S (runCalls S self0 pre) X filter (b, self') hst h
    refine ⟨filter, by simp, rfl, ?_, rfl, rfl, rfl, rfl⟩
    rw [hb, hshape, huse]
  | false =>
    have hlast : lastPackedDims (runCalls S self0 pre).ctx = some filter.dims := by
      rcases hpacked with hp | hp
      · rw [hst] at hp; cases hp
      · exact hp
    obtain ⟨-, hdims, -, -, -, hb⟩ :=
      RunOnDeviceWithOrderNHWC_keep_step S (runCalls S self0 pre) X filter (b, self') hst h
    have hsz := (filterStale_eq_false_iff _ filter).1 hst
    rcases hc with hnone | ⟨f, hf, C_out, C_in, hfd, hfl, hfs, hfi⟩
    · rw [hnone] at hsz; simp at hsz
    · have hfdims : f.dims = filter.dims := by
        rw [hlast] at hfl
        exact (Option.some.inj hfl).symm
      have heq : [C_out, at_ (runCalls S self0 pre).kernel_ 0,
          at_ (runCalls S self0 pre).kernel_ 1, C_in] =
          [filter.dim 0, at_ (runCalls S self0 pre).kernel_ 0,
            at_ (runCalls S self0 pre).kernel_ 1, X.dim 3] := by
        rw [← hfd, hfdims, ← hdims]
      have hCo : C_out = filter.dim 0 := by
        have := List.head_eq_of_cons_eq heq
        exact this
      have hCi : C_in = X.dim 3 := by
        have h3 := congrArg (fun l => l.getD 3 0) heq
        simpa using h3
      subst hCo
      subst hCi
      refine ⟨f, by simpa using Or.inl hf, hfdims, ?_, rfl, rfl, rfl, rfl⟩
      rw [hb, hfi, hshape, huse]

theorem iota_getElem? (dims : List Nat) (p : Nat) (h : p < dims.prod) :
    (iota dims).data[p]? = some (Int.ofNat p) := by
  simp [iota, List.getElem?_range h]

theorem iota_length (dims : List Nat) : (iota dims).data.length = (iota dims).size := by
  simp [iota, Tensor.size]

theorem mecImage_texel (format : ImageFormat) (f : Tensor) (C_out C_in K0 K1 p : Nat)
    (h : p < 4 * (C_out / 4 * (C_in * K1 * K0))) :
    (mecImage format f C_out C_in K0 K1).texels[p]? =
      (transposedFilter f (C_in * K1 * K0) C_out).data[p]? := by
  simp only [mecImage, copyBufferToImage, mecBuffer, TypedCopy]
  exact List.getElem?_take_of_lt h

theorem directImage_texel (T : ElemType) (f : Tensor) (C_out C_in K0 K1 p : Nat)
    (h : p < 4 * (K0 * K1 * C_in / 4 * C_out)) :
    (directImage T f C_out C_in K0 K1).texels[p]? = f.data[p]? := by
  simp only [directImage, copyBufferToImage, TypedCopy]
  exact List.getElem?_take_of_lt h

theorem afterWideCall_eq :
    afterWideCall =
      (RunWithMECConv (nhwcOp 1 false) (iota [64, 1, 1, 128]) 1 64 128 8 8 8 8).2 := by
  have hv := RunOnDeviceWithOrderNHWC_valid (outputNHWC 1) (nhwcOp 1 false)
    (iota [1, 8, 8, 128]) (iota [64, 1, 1, 128]) [1, 8, 8, 64] rfl rfl rfl rfl rfl rfl
  rw [if_pos (Or.inl (by decide))] at hv
  show (nhwcOp 1 false).after (RunOnDeviceWithOrderNHWC (outputNHWC 1) (nhwcOp 1 false)
    (iota [1, 8, 8, 128]) (iota [64, 1, 1, 128])) = _
  rw [hv]
  rfl

theorem afterWideCall_config : sameConfig (nhwcOp 1 false) afterWideCall := by
  rw [afterWideCall_eq]
  exact (RunWithMECConv_config _ _ _ _ _ _ _ _ _).1

theorem afterNarrowCall_eq :
    afterNarrowCall =
      (RunWithDirectConv afterWideCall (iota [128, 1, 1, 64]) 1 128 64 8 8 8 8).2 := by
  obtain ⟨-, hk, -, -, -, hu⟩ := afterWideCall_config
  have hv := RunOnDeviceWithOrderNHWC_valid (outputNHWC 1) afterWideCall
    (iota [1, 8, 8, 64]) (iota [128, 1, 1, 64]) [1, 8, 8, 128] rfl rfl rfl
    (by rw [← hk]; rfl) (by rw [← hk]; rfl) rfl
  have hcond : ¬ ((iota [1, 8, 8, 64]).dim 3 ≥ 128 ∨ afterWideCall.use_MEC = true) := by
    rw [← hu]; decide
  rw [if_neg hcond] at hv
  show afterWideCall.after (RunOnDeviceWithOrderNHWC (outputNHWC 1) afterWideCall
    (iota [1, 8, 8, 64]) (iota [128, 1, 1, 64])) = _
  rw [hv]
  rfl

/-- C10 fails at the sequence named in the claim (a 1x1 kernel, `use_MEC` unset): the
call with `C_in = 128`, `C_out = 64` runs Lowering+GEMM and packs the transposed filter;
the next call, with `C_in = 64`, `C_out = 128` and a filter of the same element count,
runs Direct-Convolution without repacking and binds to its kernel the image that
Lowering+GEMM packed from the first filter.  That image is not the one
Direct-Convolution packs from the current filter: its second element is element 128 of
the first filter, where Direct-Convolution would have element 1 of the current one; and
the first filter does not have the extents of the current one.  The second call finds a
cached filter of its own element count, last packed with the extents `[64, 1, 1, 128]`. -/
theorem strategy_switch_launches_with_stale_image :
    dispatched (issued (nhwcOp 1 false) afterWideCall) =
      [KernelSource.kMECLowering, KernelSource.kMECGemm] ∧
    dispatched (issued afterWideCall afterNarrowCall) = [KernelSource.kDirectConv] ∧
    uploads (issued afterWideCall afterNarrowCall) = [] ∧
    boundImages (issued afterWideCall afterNarrowCall) =
      [(KernelSource.kDirectConv,
        some (mecImage .RGBA_FLOAT (iota [64, 1, 1, 128]) 64 128 1 1))] ∧
    (mecImage .RGBA_FLOAT (iota [64, 1, 1, 128]) 64 128 1 1).texels[1]? = some 128 ∧
    (directImage .float (iota [128, 1, 1, 64]) 128 64 1 1).texels[1]? = some 1 ∧
    mecImage .RGBA_FLOAT (iota [64, 1, 1, 128]) 64 128 1 1 ≠
      directImage .float (iota [128, 1, 1, 64]) 128 64 1 1 ∧
    (iota [64, 1, 1, 128]).dims ≠ (iota [128, 1, 1, 64]).dims ∧
    afterWideCall.filterStale (iota [128, 1, 1, 64]) = false ∧
    lastPackedDims afterWideCall.ctx = some [64, 1, 1, 128] := by
  have hm : (mecImage .RGBA_FLOAT (iota [64, 1, 1, 128]) 64 128 1 1).texels[1]? = some 128 := by
    rw [mecImage_texel _ _ _ _ _ _ _ (by decide)]
    have ht := transposedFilter_getElem? (iota [64, 1, 1, 128]) (128 * 1 * 1) 64 0 1
      (by decide) (iota_length _) (by decide) (by decide)
    simp only [Nat.zero_mul, Nat.zero_add] at ht
    rw [ht, iota_getElem? _ _ (by decide)]
    rfl
  have hd : (directImage .float (iota [128, 1, 1, 64]) 128 64 1 1).texels[1]? = some 1 := by
    rw [directImage_texel _ _ _ _ _ _ _ (by decide), iota_getElem? _ _ (by decide)]
    rfl
  have hstale1 : (nhwcOp 1 false).filterStale (iota [64, 1, 1, 128]) = true := rfl
  obtain ⟨-, himg1, -, -⟩ := RunWithMECConv_pack (nhwcOp 1 false) (iota [64, 1, 1, 128])
    1 64 128 8 8 8 8 hstale1
  obtain ⟨-, -, hsz1⟩ := RunWithMECConv_filter_step (nhwcOp 1 false) (iota [64, 1, 1, 128])
    1 64 128 8 8 8 8
  have hlast : lastPackedDims afterWideCall.ctx = some [64, 1, 1, 128] := by
    obtain ⟨-, -, hup1, -⟩ := RunWithMECConv_pack (nhwcOp 1 false) (iota [64, 1, 1, 128])
      1 64 128 8 8 8 8 hstale1
    obtain ⟨-, hctx1⟩ := RunWithMECConv_config (nhwcOp 1 false) (iota [64, 1, 1, 128])
      1 64 128 8 8 8 8
    rw [afterWideCall_eq, hctx1, lastPackedDims_append_one _ _ _ hup1]
    rfl
  rw [← afterWideCall_eq] at himg1 hsz1
  have hstale2 : afterWideCall.filterStale (iota [128, 1, 1, 64]) = false := by
    rw [filterStale_eq_false_iff, hsz1]
    rfl
  obtain ⟨-, himg2, hup2, -⟩ := RunWithDirectConv_keep afterWideCall (iota [128, 1, 1, 64])
    1 128 64 8 8 8 8 hstale2
  rw [← afterNarrowCall_eq] at himg2 hup2
  refine ⟨?_, ?_, hup2, ?_, hm, hd, ?_, by decide, hstale2, hlast⟩
  · rw [afterWideCall_eq]
    exact RunWithMECConv_dispatched _ _ _ _ _ _ _ _ _
  · rw [afterNarrowCall_eq]
    exact RunWithDirectConv_dispatched _ _ _ _ _ _ _ _ _
  · have hb := RunWithDirectConv_bound afterWideCall (iota [128, 1, 1, 64]) 1 128 64 8 8 8 8
    rw [← afterNarrowCall_eq] at hb
    rw [hb, himg2, himg1]
    rfl
  · intro heq
    rw [heq, hd] at hm
    exact absurd hm (by decide)

/-- Witness of C10 as amended: on a fresh instance with a 3x3 kernel, a call with
`C_in = C_out = 4` is followed by a call with `C_in = C_out = 8`; the element count
differs, the second call repacks and binds the image Direct-Convolution packs from its
own filter. -/
theorem launch_binds_image_of_current_extents_witness :
    (ConvOp.new .float [3, 3] [1, 1] 1 false = .ok (nhwcOp 3 false) ∧
      (∀ c ∈ [(StorageOrder.NHWC, iota [1, 5, 5, 4], iota [4, 3, 3, 4])], c.1 = .NHWC) ∧
      ((runCalls (outputNHWC 3) (nhwcOp 3 false)
            [(.NHWC, iota [1, 5, 5, 4], iota [4, 3, 3, 4])]).filterStale (iota [8, 3, 3, 8]) =
          true ∨
        lastPackedDims (runCalls (outputNHWC 3) (nhwcOp 3 false)
            [(.NHWC, iota [1, 5, 5, 4], iota [4, 3, 3, 4])]).ctx =
          some (iota [8, 3, 3, 8]).dims) ∧
      RunOnDeviceWithOrderNHWC (outputNHWC 3)
        (runCalls (outputNHWC 3) (nhwcOp 3 false)
          [(.NHWC, iota [1, 5, 5, 4], iota [4, 3, 3, 4])])
        (iota [1, 5, 5, 8]) (iota [8, 3, 3, 8]) = .ok (true, afterLargerCall)) ∧
    (∃ f ∈ ([(StorageOrder.NHWC, iota [1, 5, 5, 4], iota [4, 3, 3, 4])].map fun c => c.2.2) ++
        [iota [8, 3, 3, 8]],
      f.dims = (iota [8, 3, 3, 8]).dims ∧
      boundImages (issued
          (runCalls (outputNHWC 3) (nhwcOp 3 false)
            [(.NHWC, iota [1, 5, 5, 4], iota [4, 3, 3, 4])])
          afterLargerCall) =
        [(if (iota [1, 5, 5, 8]).dim 3 ≥ 128 ∨ false = true then KernelSource.kMECGemm
            else KernelSource.kDirectConv,
          some (if (iota [1, 5, 5, 8]).dim 3 ≥ 128 ∨ false = true
            then mecImage (nhwcOp 3 false).filter_image_format_ f ((iota [8, 3, 3, 8]).dim 0)
              ((iota [1, 5, 5, 8]).dim 3) (at_ [3, 3] 0) (at_ [3, 3] 1)
            else directImage .float f ((iota [8, 3, 3, 8]).dim 0) ((iota [1, 5, 5, 8]).dim 3)
              (at_ [3, 3] 0) (at_ [3, 3] 1)))] ∧
      (mecImage (nhwcOp 3 false).filter_image_format_ f ((iota [8, 3, 3, 8]).dim 0)
          ((iota [1, 5, 5, 8]).dim 3) (at_ [3, 3] 0) (at_ [3, 3] 1)).width =
        (iota [8, 3, 3, 8]).dim 0 / 4 ∧
      (mecImage (nhwcOp 3 false).filter_image_format_ f ((iota [8, 3, 3, 8]).dim 0)
          ((iota [1, 5, 5, 8]).dim 3) (at_ [3, 3] 0) (at_ [3, 3] 1)).height =
        (iota [1, 5, 5, 8]).dim 3 * at_ [3, 3] 1 * at_ [3, 3] 0 ∧
      (directImage .float f ((iota [8, 3, 3, 8]).dim 0) ((iota [1, 5, 5, 8]).dim 3)
          (at_ [3, 3] 0) (at_ [3, 3] 1)).width =
        at_ [3, 3] 0 * at_ [3, 3] 1 * (iota [1, 5, 5, 8]).dim 3 / 4 ∧
      (directImage .float f ((iota [8, 3, 3, 8]).dim 0) ((iota [1, 5, 5, 8]).dim 3)
          (at_ [3, 3] 0) (at_ [3, 3] 1)).height = (iota [8, 3, 3, 8]).dim 0) :=
  ⟨⟨rfl, by simp, Or.inl rfl, rfl⟩,
    launch_binds_image_of_current_extents (outputNHWC 3) .float [3, 3] [1, 1] 1 false
      (nhwcOp 3 false) rfl [(.NHWC, iota [1, 5, 5, 4], iota [4, 3, 3, 4])] (iota [1, 5, 5, 8])
      (iota [8, 3, 3, 8]) (by simp) (Or.inl rfl) true afterLargerCall rfl⟩

end caffe2
